import Mathlib

/-!
# Verification of the MTDA agent core (`mtda/main.py`)

A shallow embedding of the `MentorTestDeviceAgent` class: its session-lease
model, power / SD-mux / USB state machines, and the streaming write pipeline.

Embedding conventions:
* Python object state is the structure `AgentState`; every method becomes a
  function `AgentState → args → Except Err α × AgentState`.  The state is
  returned even on the error path, matching Python semantics where mutations
  made before a raised exception persist on the object.
* Python exceptions are the `Err` type (`TypeError`, `AttributeError`,
  `EOFError`).  `EOFError` is caught inside `sd_write_bz2`; the others
  propagate to the facade boundary.
* `time.monotonic()` values are explicit `Nat` parameters.  Within one
  facade call all clock reads return the same `now`, except the write-loop
  functions which take a clock sequence `Nat → Nat` (one entry per
  `time.monotonic()` call inside the loop).
* Hardware drivers are external collaborators (configured reflectively,
  out of scope per the spec); each is a record of fixed response values,
  and every driver invocation is recorded in a ghost `trace` so that
  "the driver was not invoked" is expressible.
* Byte strings are `List Nat`.
-/

namespace Mtda

/-- Python exceptions that can be raised by the modelled code. -/
inductive Err
  | typeError
  | attributeError
  | eofError
  deriving DecidableEq, Repr

/-- The three states of the `self.zdata` attribute: never assigned
(`unset`, reading it raises `AttributeError`), assigned `None`, or a
byte string. -/
inductive PyBytes
  | unset
  | pynone
  | val (b : List Nat)
  deriving DecidableEq, Repr

/-- Ghost record of one invocation of an external collaborator (hardware
driver or console logger). -/
inductive DriverCall
  | powerOn
  | powerOff
  | powerToggle
  | powerStatus
  | muxOpen
  | muxClose
  | muxMount (part : Option String)
  | muxUpdate (dst : Option String) (offset : Nat) (data : List Nat)
  | muxWrite (data : List Nat)
  | muxToHost
  | muxToTarget
  | muxStatus
  | usbOn (ndx : Nat)
  | usbOff (ndx : Nat)
  | usbToggle (ndx : Nat)
  | usbStatus (ndx : Nat)
  | consoleResume
  | consolePause
  | consoleReset
  deriving DecidableEq, Repr

/-- Modelled from the spec: the power-controller driver capability
`probe/on/off/toggle/status` (concrete drivers are loaded from
configuration and are out of scope).  Each driver is a record of the
responses it gives; invocations are recorded in the agent trace. -/
structure PowerDriver where
  on_result : Bool
  off_result : Bool
  toggle_result : String
  status_result : String
  deriving DecidableEq, Repr

/-- Modelled from the spec: constant `POWER_OFF` of `mtda.power.controller`
(not under `src/`). -/
def POWER_OFF : String := "OFF"

/-- Modelled from the spec: constant `POWER_ON` of `mtda.power.controller`
(not under `src/`). -/
def POWER_ON : String := "ON"

/-- Modelled from the spec: constant `POWER_LOCKED` of
`mtda.power.controller` (not under `src/`): the derived calling-convention
value for "no driver present or lease held by another session". -/
def POWER_LOCKED : String := "LOCKED"

/-- Modelled from the spec: the SD-mux driver capability
`probe/open/close/mount/write/status/to_host/to_target`. -/
structure MuxDriver where
  open_result : Bool
  close_result : Bool
  mount_result : Bool
  write_ok : Bool
  update_result : Int
  to_host_result : Bool
  to_target_result : Bool
  status_result : String
  deriving DecidableEq, Repr

/-- Modelled from the spec: mux status constant `SD_ON_HOST`. -/
def SD_ON_HOST : String := "HOST"

/-- Modelled from the spec: mux status constant `SD_ON_TARGET`. -/
def SD_ON_TARGET : String := "TARGET"

/-- Modelled from the spec: a USB power-switch driver with its class tag;
`st` is the switch's power state, mutated by `on/off/toggle`. -/
structure UsbSwitch where
  className : String
  st : Bool
  deriving DecidableEq, Repr

/-- The fixed block size `self.blksz = 65536`. -/
def blksz : Nat := 65536

/-- `self.blksz` as a status value (`Int`). -/
def blkszI : Int := 65536

/-- Modelled from the spec: the state of a `zlib.decompressobj` used by the
gzip write path.  The external zlib library is modelled as a correct
streaming decoder over an identity codec: the "compressed" representation
of a payload is the payload itself, `decompress data maxlen` emits at most
`maxlen` bytes and leaves the unconsumed input in `unconsumed_tail`
(which the caller must re-feed, as the pipeline does). -/
structure ZDec where
  unconsumed_tail : List Nat
  deriving DecidableEq, Repr

/-- `zlib.decompressobj(16+zlib.MAX_WBITS)`: a fresh decompressor. -/
def freshZDec : ZDec := ⟨[]⟩

/-- `zdec.decompress(data, maxlen)` under the identity-codec model:
emit the first `maxlen` bytes, store the remainder in
`unconsumed_tail`. -/
def ZDec.decompress (_zd : ZDec) (data : List Nat) (maxlen : Nat) :
    List Nat × ZDec :=
  (data.take maxlen, ⟨data.drop maxlen⟩)

/-- Modelled from the spec: the alphabet of a bzip2-compressed stream in
the identity-codec model: `some b` is a literal byte, `none` is the
end-of-stream marker that terminates one compressed stream. -/
abbrev CByte := Option Nat

/-- The literal bytes of a (possibly multi-stream) compressed byte
sequence: drop the end-of-stream markers. -/
def lits (l : List CByte) : List Nat := l.filterMap id

/-- The modelled bzip2-compressed representation of a payload: its bytes
followed by one end-of-stream marker. -/
def bz2enc (payload : List Nat) : List CByte := payload.map some ++ [none]

/-- Modelled from the spec: the state of a `bz2.BZ2Decompressor`.
`buf` is input buffered internally when the `max_length` limit was hit,
`unused_data` is the input found after the end-of-stream marker, `eof`
records that the marker was seen (a further `decompress` raises
`EOFError`), `needs_input` is the attribute read by the pipeline. -/
structure Bz2Dec where
  buf : List CByte
  unused_data : List CByte
  eof : Bool
  needs_input : Bool
  deriving DecidableEq, Repr

/-- `bz2.BZ2Decompressor()`: a fresh decompressor. -/
def freshBz2 : Bz2Dec := ⟨[], [], false, true⟩

/-- Result of scanning buffered + new input for one `decompress` call:
the input was exhausted, the `max_length` limit was hit with `rest`
remaining, or the end-of-stream marker was found with `rest` after it. -/
inductive BzOutcome
  | exhausted
  | limit (rest : List CByte)
  | marker (rest : List CByte)
  deriving DecidableEq, Repr

/-- Scan at most `maxlen` literal bytes from the input, stopping at the
`max_length` limit or the end-of-stream marker. -/
def scanBz2 : Nat → List CByte → List Nat × BzOutcome
  | _, [] => ([], .exhausted)
  | 0, b :: rest => ([], .limit (b :: rest))
  | Nat.succ _, none :: rest => ([], .marker rest)
  | Nat.succ m, some x :: rest =>
      let p := scanBz2 m rest
      (x :: p.1, p.2)

/-- `bz2dec.decompress(data, maxlen)` under the identity-codec model:
raise `EOFError` if the end of stream was already reached; otherwise
process buffered plus new input, emitting at most `maxlen` bytes, setting
`needs_input` to false when output was cut short by the limit or the
stream ended with trailing data. -/
def Bz2Dec.decompress (dec : Bz2Dec) (data : List CByte) (maxlen : Nat) :
    Except Err (List Nat × Bz2Dec) :=
  if dec.eof then .error .eofError
  else
    match scanBz2 maxlen (dec.buf ++ data) with
    | (out, .exhausted) => .ok (out, ⟨[], dec.unused_data, false, true⟩)
    | (out, .limit rest) => .ok (out, ⟨rest, dec.unused_data, false, false⟩)
    | (out, .marker rest) => .ok (out, ⟨[], rest, true, false⟩)

/-- The mutable state of one `MentorTestDeviceAgent` object, restricted to
the fields the core logic reads or writes, plus the ghost `trace` of
driver invocations and the ghost `errlog` of `stderr` error reports. -/
structure AgentState where
  power_controller : Option PowerDriver
  sdmux_controller : Option MuxDriver
  console_logger : Option Unit
  sd_bytes_written : Nat
  sd_mounted : Bool
  sd_opened : Bool
  bz2dec : Option Bz2Dec
  zdec : Option ZDec
  zdata : PyBytes
  fbintvl : Nat
  usb_switches : List UsbSwitch
  lock_owner : Option String
  lock_timeout : Nat
  lock_expiry : Option Nat
  trace : List DriverCall
  errlog : List String
  deriving DecidableEq, Repr

/-- Python truthiness of the `_lock_owner` field as used by
`if self._lock_owner:` — `None` and the empty string are falsy. -/
def pyTruthy : Option String → Bool
  | none => false
  | some s => !(s == "")

/-- `_check_expired(session)` (lines 663–669): if the owner is truthy,
a call from the owner slides the expiry to `now + timeout*60`; otherwise
a call observing `now >= expiry` clears the owner.  If the expiry was
never set, the comparison `now >= None` raises `TypeError`. -/
def check_expired (s : AgentState) (session : Option String) (now : Nat) :
    Except Err Unit × AgentState :=
  if pyTruthy s.lock_owner then
    if session == s.lock_owner then
      (.ok (), { s with lock_expiry := some (now + s.lock_timeout * 60) })
    else
      match s.lock_expiry with
      | none => (.error .typeError, s)
      | some e => if e ≤ now then (.ok (), { s with lock_owner := none })
                  else (.ok (), s)
  else (.ok (), s)

/-- `_check_locked(session)` (lines 671–676): an owner exists and is not
the calling session. -/
def check_locked (s : AgentState) (session : Option String) : Bool :=
  match s.lock_owner with
  | none => false
  | some o => !(session == some o)

/-- `target_owner()` (lines 390–391). -/
def target_owner (s : AgentState) : Option String := s.lock_owner

/-- `target_lock(session)` (lines 378–384): succeed and take (or keep)
ownership iff there is no owner or the owner is the calling session.
Note: the expiry field is not touched here. -/
def target_lock (s : AgentState) (session : Option String) (now : Nat) :
    Except Err Bool × AgentState :=
  match check_expired s session now with
  | (.error e, s') => (.error e, s')
  | (.ok _, s1) =>
    match target_owner s1 with
    | none => (.ok true, { s1 with lock_owner := session })
    | some o =>
      if session == some o then (.ok true, { s1 with lock_owner := session })
      else (.ok false, s1)

/-- `target_unlock(session)` (lines 431–436). -/
def target_unlock (s : AgentState) (session : Option String) (now : Nat) :
    Except Err Bool × AgentState :=
  match check_expired s session now with
  | (.error e, s') => (.error e, s')
  | (.ok _, s1) =>
    if target_owner s1 == session then (.ok true, { s1 with lock_owner := none })
    else (.ok false, s1)

/-- `target_locked(session)` (lines 386–388). -/
def target_locked (s : AgentState) (session : Option String) (now : Nat) :
    Except Err Bool × AgentState :=
  match check_expired s session now with
  | (.error e, s') => (.error e, s')
  | (.ok _, s1) => (.ok (check_locked s1 session), s1)

/-- The spec's lease data-model invariant: "if `owner` is set, `expiry`
is set" (stated for a truthy owner, the only case `_check_expired`
dereferences the expiry). -/
def LockWF (s : AgentState) : Prop :=
  pyTruthy s.lock_owner = true → s.lock_expiry.isSome

instance (s : AgentState) : Decidable (LockWF s) := by
  unfold LockWF; infer_instance

/-- `power_locked(session)` (lines 149–155): lease-locked for this
session, or no power driver configured. -/
def power_locked (s : AgentState) (session : Option String) (now : Nat) :
    Except Err Bool × AgentState :=
  match check_expired s session now with
  | (.error e, s') => (.error e, s')
  | (.ok _, s1) =>
    if check_locked s1 session then (.ok true, s1)
    else if s1.power_controller.isNone then (.ok true, s1)
    else (.ok false, s1)

/-- `target_status(session)` (lines 412–416): `"???"` without a power
driver, else the driver-reported state. -/
def target_status (s : AgentState) (session : Option String) (now : Nat) :
    Except Err String × AgentState :=
  match check_expired s session now with
  | (.error e, s') => (.error e, s')
  | (.ok _, s1) =>
    match s1.power_controller with
    | none => (.ok "???", s1)
    | some p => (.ok p.status_result,
                 { s1 with trace := s1.trace ++ [.powerStatus] })

/-- The body of `target_on` after the console bookkeeping (lines
396–399): delegate to the power driver unless power-locked. -/
def target_on_core (s0 : AgentState) (session : Option String) (now : Nat) :
    Except Err Bool × AgentState :=
  match check_expired s0 session now with
  | (.error e, s') => (.error e, s')
  | (.ok _, s1) =>
    match power_locked s1 session now with
    | (.error e, s2) => (.error e, s2)
    | (.ok pl, s2) =>
      if pl = false then
        match s2.power_controller with
        | some p => (.ok p.on_result,
                     { s2 with trace := s2.trace ++ [.powerOn] })
        | none => (.error .attributeError, s2)
      else (.ok false, s2)

/-- `target_on(session)` (lines 393–399): resume console logging first,
then delegate to the power driver unless power-locked. -/
def target_on (s : AgentState) (session : Option String) (now : Nat) :
    Except Err Bool × AgentState :=
  match s.console_logger with
  | some _ =>
    target_on_core { s with trace := s.trace ++ [DriverCall.consoleResume] }
      session now
  | none => target_on_core s session now

/-- `target_off(session)` (lines 401–410): delegate to the power driver
unless power-locked, reset the console timer, and pause console logging
when the driver reported success.  The `pause()` call is not guarded by
the `console_logger is not None` check. -/
def target_off (s : AgentState) (session : Option String) (now : Nat) :
    Except Err Bool × AgentState :=
  match check_expired s session now with
  | (.error e, s') => (.error e, s')
  | (.ok _, s1) =>
    match power_locked s1 session now with
    | (.error e, s2) => (.error e, s2)
    | (.ok pl, s2) =>
      if pl = false then
        match s2.power_controller with
        | some p =>
          let s3 := { s2 with trace := s2.trace ++ [DriverCall.powerOff] }
          let s4 := match s3.console_logger with
            | some _ => { s3 with trace := s3.trace ++ [DriverCall.consoleReset] }
            | none => s3
          if p.off_result then
            match s4.console_logger with
            | some _ => (.ok true,
                         { s4 with trace := s4.trace ++ [.consolePause] })
            | none => (.error .attributeError, s4)
          else (.ok false, s4)
        | none => (.error .attributeError, s2)
      else (.ok false, s2)

/-- `target_toggle(session)` (lines 418–429): delegate to the power
driver unless power-locked; when power-locked, return the
`POWER_LOCKED` constant read from the power driver object (raising
`AttributeError` when no driver is configured). -/
def target_toggle (s : AgentState) (session : Option String) (now : Nat) :
    Except Err String × AgentState :=
  match check_expired s session now with
  | (.error e, s') => (.error e, s')
  | (.ok _, s1) =>
    match power_locked s1 session now with
    | (.error e, s2) => (.error e, s2)
    | (.ok pl, s2) =>
      if pl = false then
        match s2.power_controller with
        | some p =>
          let status := p.toggle_result
          let s3 := { s2 with trace := s2.trace ++ [DriverCall.powerToggle] }
          let s4 := match s3.console_logger with
            | some _ =>
              let sa := if status == POWER_OFF then
                          { s3 with trace := s3.trace ++ [DriverCall.consoleResume] }
                        else s3
              if status == POWER_OFF then
                { sa with trace :=
                    sa.trace ++ [DriverCall.consolePause, DriverCall.consoleReset] }
              else sa
            | none => s3
          (.ok status, s4)
        | none => (.error .attributeError, s2)
      else
        match s2.power_controller with
        | some _ => (.ok POWER_LOCKED, s2)
        | none => (.error .attributeError, s2)

/-- `sd_bytes_written(session)` (lines 157–159). -/
def sd_bytes_written (s : AgentState) (session : Option String) (now : Nat) :
    Except Err Nat × AgentState :=
  match check_expired s session now with
  | (.error e, s') => (.error e, s')
  | (.ok _, s1) => (.ok s1.sd_bytes_written, s1)

/-- `sd_close(session)` (lines 161–169): fail without a mux driver,
discard both decompressor states, delegate to the driver `close()` when
a write session is open, and report whether the session is now closed. -/
def sd_close (s : AgentState) (session : Option String) (now : Nat) :
    Except Err Bool × AgentState :=
  match check_expired s session now with
  | (.error e, s') => (.error e, s')
  | (.ok _, s1) =>
    match s1.sdmux_controller with
    | none => (.ok false, s1)
    | some m =>
      let s2 := { s1 with bz2dec := none, zdec := none }
      if s2.sd_opened then
        let s3 := { s2 with trace := s2.trace ++ [DriverCall.muxClose],
                            sd_opened := !m.close_result }
        (.ok (s3.sd_opened == false), s3)
      else (.ok (s2.sd_opened == false), s2)

/-- `sd_status(session)` (lines 222–227). -/
def sd_status (s : AgentState) (session : Option String) (now : Nat) :
    Except Err String × AgentState :=
  match check_expired s session now with
  | (.error e, s') => (.error e, s')
  | (.ok _, s1) =>
    match s1.sdmux_controller with
    | none => (.ok "???", s1)
    | some m => (.ok m.status_result,
                 { s1 with trace := s1.trace ++ [.muxStatus] })

/-- `sd_locked(session)` (lines 171–189): lease-locked, or no mux
driver, or no power driver, or the target is not reported `OFF`, or an
explicit write session is open. -/
def sd_locked (s : AgentState) (session : Option String) (now : Nat) :
    Except Err Bool × AgentState :=
  match check_expired s session now with
  | (.error e, s') => (.error e, s')
  | (.ok _, s1) =>
    if check_locked s1 session then (.ok true, s1)
    else if s1.sdmux_controller.isNone then (.ok true, s1)
    else if s1.power_controller.isNone then (.ok true, s1)
    else
      match target_status s1 none now with
      | (.error e, s2) => (.error e, s2)
      | (.ok st, s2) =>
        if st != "OFF" then (.ok true, s2)
        else if s2.sd_opened then (.ok true, s2)
        else (.ok false, s2)

/-- `sd_mount(part, session)` (lines 191–199): immediate success when
already mounted; otherwise delegate and record the result. -/
def sd_mount (s : AgentState) (part : Option String) (session : Option String)
    (now : Nat) : Except Err Bool × AgentState :=
  match check_expired s session now with
  | (.error e, s') => (.error e, s')
  | (.ok _, s1) =>
    if s1.sd_mounted then (.ok true, s1)
    else
      match s1.sdmux_controller with
      | none => (.ok false, s1)
      | some m =>
        (.ok m.mount_result,
         { s1 with trace := s1.trace ++ [.muxMount part],
                   sd_mounted := m.mount_result })

/-- `sd_update(dst, offset, data, session)` (lines 201–210). -/
def sd_update (s : AgentState) (dst : Option String) (offset : Nat)
    (data : List Nat) (session : Option String) (now : Nat) :
    Except Err Int × AgentState :=
  match check_expired s session now with
  | (.error e, s') => (.error e, s')
  | (.ok _, s1) =>
    match s1.sdmux_controller with
    | none => (.ok (-1), s1)
    | some m =>
      let s2 := if offset = 0 then { s1 with sd_bytes_written := 0 } else s1
      let s3 := { s2 with trace := s2.trace ++ [.muxUpdate dst offset data] }
      if 0 < m.update_result then
        (.ok m.update_result,
         { s3 with sd_bytes_written := s3.sd_bytes_written + m.update_result.toNat })
      else (.ok m.update_result, s3)

/-- `sd_open(session)` (lines 212–220): fail without a mux driver, close
any previous write session (with no session argument), reset the byte
counter, delegate to the driver `open()` and record the result. -/
def sd_open (s : AgentState) (session : Option String) (now : Nat) :
    Except Err Bool × AgentState :=
  match check_expired s session now with
  | (.error e, s') => (.error e, s')
  | (.ok _, s1) =>
    match s1.sdmux_controller with
    | none => (.ok false, s1)
    | some _ =>
      match sd_close s1 none now with
      | (.error e, s2) => (.error e, s2)
      | (.ok _, s2) =>
        let s3 := { s2 with sd_bytes_written := 0 }
        match s3.sdmux_controller with
        | none => (.error .attributeError, s3)
        | some m =>
          (.ok m.open_result,
           { s3 with trace := s3.trace ++ [.muxOpen],
                     sd_opened := m.open_result })

/-- `sd_to_host(session)` (lines 347–351): delegate to the driver swap
only when `sd_locked` reports false. -/
def sd_to_host (s : AgentState) (session : Option String) (now : Nat) :
    Except Err Bool × AgentState :=
  match check_expired s session now with
  | (.error e, s') => (.error e, s')
  | (.ok _, s1) =>
    match sd_locked s1 session now with
    | (.error e, s2) => (.error e, s2)
    | (.ok locked, s2) =>
      if locked = false then
        match s2.sdmux_controller with
        | some m => (.ok m.to_host_result,
                     { s2 with trace := s2.trace ++ [.muxToHost] })
        | none => (.error .attributeError, s2)
      else (.ok false, s2)

/-- `sd_to_target(session)` (lines 353–358): when not locked, close any
open write session first, then delegate to the driver swap. -/
def sd_to_target (s : AgentState) (session : Option String) (now : Nat) :
    Except Err Bool × AgentState :=
  match check_expired s session now with
  | (.error e, s') => (.error e, s')
  | (.ok _, s1) =>
    match sd_locked s1 session now with
    | (.error e, s2) => (.error e, s2)
    | (.ok locked, s2) =>
      if locked = false then
        match sd_close s2 none now with
        | (.error e, s3) => (.error e, s3)
        | (.ok _, s3) =>
          match s3.sdmux_controller with
          | some m => (.ok m.to_target_result,
                       { s3 with trace := s3.trace ++ [.muxToTarget] })
          | none => (.error .attributeError, s3)
      else (.ok false, s2)

/-- The conditional swap inside `sd_toggle` (lines 362–367): when not
locked, look at the current status and swap to the other side. -/
def sd_toggle_swap (locked : Bool) (s2 : AgentState) (session : Option String)
    (now : Nat) : Except Err Unit × AgentState :=
  if locked = false then
    match sd_status s2 session now with
    | (.error e, s3) => (.error e, s3)
    | (.ok st, s3) =>
      match s3.sdmux_controller with
      | some _ =>
        if st == SD_ON_HOST then
          (.ok (), { s3 with trace := s3.trace ++ [DriverCall.muxToTarget] })
        else if st == SD_ON_TARGET then
          (.ok (), { s3 with trace := s3.trace ++ [DriverCall.muxToHost] })
        else (.ok (), s3)
      | none => (.error Err.attributeError, s3)
  else (.ok (), s2)

/-- `sd_toggle(session)` (lines 360–369): when not locked, look at the
current status and swap to the other side; always return the resulting
status. -/
def sd_toggle (s : AgentState) (session : Option String) (now : Nat) :
    Except Err String × AgentState :=
  match check_expired s session now with
  | (.error e, s') => (.error e, s')
  | (.ok _, s1) =>
    match sd_locked s1 session now with
    | (.error e, s2) => (.error e, s2)
    | (.ok locked, s2) =>
      match sd_toggle_swap locked s2 session now with
      | (.error e, s4) => (.error e, s4)
      | (.ok _, s4) => sd_status s4 session now

/-- `sd_write_raw(data, session)` (lines 337–345). -/
def sd_write_raw (s : AgentState) (data : List Nat) (session : Option String)
    (now : Nat) : Except Err Int × AgentState :=
  match check_expired s session now with
  | (.error e, s') => (.error e, s')
  | (.ok _, s1) =>
    match s1.sdmux_controller with
    | none => (.ok (-1), s1)
    | some m =>
      let s2 := { s1 with trace := s1.trace ++ [.muxWrite data] }
      if m.write_ok = false then (.ok (-1), s2)
      else (.ok blkszI,
            { s2 with sd_bytes_written := s2.sd_bytes_written + data.length })

/-- `usb_on(ndx, session)` (lines 470–477): 1-based; a positive index
beyond the registry is caught (`IndexError`) and reported; index 0 is
silently ignored. -/
def usb_on (s : AgentState) (ndx : Nat) (session : Option String) (now : Nat) :
    Except Err Unit × AgentState :=
  match check_expired s session now with
  | (.error e, s') => (.error e, s')
  | (.ok _, s1) =>
    if ndx > 0 then
      if h : ndx - 1 < s1.usb_switches.length then
        let sw := s1.usb_switches.get ⟨ndx - 1, h⟩
        (.ok (), { s1 with
          usb_switches := s1.usb_switches.set (ndx - 1) { sw with st := true },
          trace := s1.trace ++ [.usbOn ndx] })
      else
        (.ok (), { s1 with
          errlog := s1.errlog ++ ["invalid USB switch #" ++ toString ndx] })
    else (.ok (), s1)

/-- `usb_off(ndx, session)` (lines 454–461). -/
def usb_off (s : AgentState) (ndx : Nat) (session : Option String) (now : Nat) :
    Except Err Unit × AgentState :=
  match check_expired s session now with
  | (.error e, s') => (.error e, s')
  | (.ok _, s1) =>
    if ndx > 0 then
      if h : ndx - 1 < s1.usb_switches.length then
        let sw := s1.usb_switches.get ⟨ndx - 1, h⟩
        (.ok (), { s1 with
          usb_switches := s1.usb_switches.set (ndx - 1) { sw with st := false },
          trace := s1.trace ++ [.usbOff ndx] })
      else
        (.ok (), { s1 with
          errlog := s1.errlog ++ ["invalid USB switch #" ++ toString ndx] })
    else (.ok (), s1)

/-- `usb_toggle(ndx, session)` (lines 507–514). -/
def usb_toggle (s : AgentState) (ndx : Nat) (session : Option String)
    (now : Nat) : Except Err Unit × AgentState :=
  match check_expired s session now with
  | (.error e, s') => (.error e, s')
  | (.ok _, s1) =>
    if ndx > 0 then
      if h : ndx - 1 < s1.usb_switches.length then
        let sw := s1.usb_switches.get ⟨ndx - 1, h⟩
        (.ok (), { s1 with
          usb_switches := s1.usb_switches.set (ndx - 1) { sw with st := !sw.st },
          trace := s1.trace ++ [.usbToggle ndx] })
      else
        (.ok (), { s1 with
          errlog := s1.errlog ++ ["invalid USB switch #" ++ toString ndx] })
    else (.ok (), s1)

/-- `usb_status(ndx, session)` (lines 490–505): `"ON"`/`"OFF"` for a
valid index, `"ERR"` after a caught `IndexError`, `"???"` otherwise
(including index 0, which skips the lookup entirely). -/
def usb_status (s : AgentState) (ndx : Nat) (session : Option String)
    (now : Nat) : Except Err String × AgentState :=
  match check_expired s session now with
  | (.error e, s') => (.error e, s')
  | (.ok _, s1) =>
    if ndx > 0 then
      if h : ndx - 1 < s1.usb_switches.length then
        let sw := s1.usb_switches.get ⟨ndx - 1, h⟩
        (.ok (if sw.st then "ON" else "OFF"),
         { s1 with trace := s1.trace ++ [.usbStatus ndx] })
      else
        (.ok "ERR", { s1 with
          errlog := s1.errlog ++ ["invalid USB switch #" ++ toString ndx] })
    else (.ok "???", s1)

/-- Decomposition of the input by one `scanBz2` pass. -/
theorem scanBz2_decomp (ml : Nat) (input : List CByte) :
    match scanBz2 ml input with
    | (out, .exhausted) => input = out.map some
    | (out, .limit rest) => input = out.map some ++ rest ∧ out.length = ml
    | (out, .marker rest) => input = out.map some ++ none :: rest := by
  induction ml, input using scanBz2.induct with
  | case1 ml => simp [scanBz2]
  | case2 b rest => simp [scanBz2]
  | case3 m rest => simp [scanBz2]
  | case4 m x rest ih =>
    simp only [scanBz2]
    rcases hp : scanBz2 m rest with ⟨o, oc⟩
    rw [hp] at ih
    cases oc with
    | exhausted =>
      have ih2 : rest = List.map some o := ih
      simp [ih2]
    | limit r =>
      have ih2 : rest = List.map some o ++ r ∧ o.length = m := ih
      simp [ih2.1, ih2.2]
    | marker r =>
      have ih2 : rest = List.map some o ++ none :: r := ih
      simp [ih2]

theorem scanBz2_limit_len {ml : Nat} {input : List CByte}
    {rest : List CByte} {o : List Nat}
    (h : scanBz2 ml input = (o, .limit rest)) :
    input.length = ml + rest.length := by
  have hd := scanBz2_decomp ml input
  rw [h] at hd
  have := congrArg List.length hd.1
  simp [hd.2] at this
  omega

theorem scanBz2_marker_len {ml : Nat} {input : List CByte}
    {rest : List CByte} {o : List Nat}
    (h : scanBz2 ml input = (o, .marker rest)) :
    input.length = o.length + 1 + rest.length := by
  have hd := scanBz2_decomp ml input
  rw [h] at hd
  have := congrArg List.length hd
  simp at this
  omega

/-- Termination measure of the `sd_write_bz2` while-loop: pending input
weighted so that every continuing iteration strictly decreases it. -/
def bzMeasure (s : AgentState) (data : List CByte) : Nat :=
  match s.bz2dec with
  | none => 0
  | some d => 2 * (d.buf.length + d.unused_data.length + data.length) +
      (if d.eof then 1 else 0)

/-- The while-loop of `sd_write_gz` (lines 317–335), one recursive call
per iteration.  Each iteration runs `_sd_write_gz` (lines 285–298):
decompress one block, write it to the mux, and either stop (error or
input fully consumed) or continue on the unconsumed tail, caching it in
`self.zdata` when the feedback interval elapsed.  `clock i` is the value
of the `time.monotonic()` call made in iteration `i`. -/
def gz_loop (s : AgentState) (data : List Nat) (start : Nat)
    (clock : Nat → Nat) (i : Nat) : Except Err Int × AgentState :=
  match s.zdec, s.sdmux_controller with
  | some zd, some m =>
    let p := zd.decompress data blksz
    let s1 := { s with zdec := some p.2,
                       trace := s.trace ++ [DriverCall.muxWrite p.1] }
    if m.write_ok = false then (.ok (-1), { s1 with zdata := .pynone })
    else
      let s2 := { s1 with sd_bytes_written := s1.sd_bytes_written + p.1.length,
                          zdata := PyBytes.pynone }
      if h : p.2.unconsumed_tail.isEmpty then (.ok blkszI, s2)
      else
        if s2.fbintvl ≤ clock i - start then
          (.ok 0, { s2 with zdata := .val p.2.unconsumed_tail })
        else gz_loop s2 p.2.unconsumed_tail start clock (i + 1)
  | _, _ => (.error .attributeError, s)
termination_by data.length
decreasing_by
  simp only [ZDec.decompress, List.isEmpty_eq_true] at h ⊢
  have hlen : (data.drop blksz).length = data.length - blksz :=
    List.length_drop blksz data
  have hpos : 0 < (data.drop blksz).length := List.length_pos.mpr h
  have : 0 < blksz := by simp [blksz]
  omega

/-- `sd_write_gz(data, session)` (lines 300–335): create the zlib
decompressor on first use, substitute the cached tail for an empty
buffer (`self.zdata` starts out unassigned, so this raises on a fresh
agent), then run the decompress-and-write loop. -/
def sd_write_gz (s : AgentState) (data : List Nat) (session : Option String)
    (clock : Nat → Nat) : Except Err Int × AgentState :=
  match check_expired s session (clock 0) with
  | (.error e, s') => (.error e, s')
  | (.ok _, s1) =>
    match s1.sdmux_controller with
    | none => (.ok (-1), s1)
    | some _ =>
      let s2 := if s1.zdec.isNone then { s1 with zdec := some freshZDec } else s1
      if data.isEmpty then
        match s2.zdata with
        | .unset => (.error .attributeError, s2)
        | .pynone => (.error .typeError, s2)
        | .val b => gz_loop s2 b (clock 1) clock 2
      else gz_loop s2 data (clock 1) clock 2

/-- The while-loop of `sd_write_bz2` (lines 257–283), one recursive call
per iteration.  Each iteration runs `_sd_write_bz2` (lines 229–242)
inside the `try`; the `except EOFError` branch swaps in a fresh
decompressor and resumes on the unused data of the exhausted one. -/
def bz2_loop (s : AgentState) (data : List CByte) (start : Nat)
    (clock : Nat → Nat) (i : Nat) : Except Err Int × AgentState :=
  match h1 : s.bz2dec, h2 : s.sdmux_controller with
  | some dec, some m =>
    match h : dec.decompress data blksz with
    | .error _ =>
      let u := dec.unused_data
      let s' := { s with bz2dec := some freshBz2 }
      if u.isEmpty then (.ok 0, s')
      else bz2_loop s' u start clock i
    | .ok (out, dec') =>
      let s1 := { s with bz2dec := some dec',
                         trace := s.trace ++ [DriverCall.muxWrite out] }
      if m.write_ok = false then (.ok (-1), s1)
      else
        let s2 := { s1 with sd_bytes_written := s1.sd_bytes_written + out.length }
        if dec'.needs_input then (.ok blkszI, s2)
        else
          if s2.fbintvl ≤ clock i - start then (.ok 0, s2)
          else bz2_loop s2 [] start clock (i + 1)
  | _, _ => (.error .attributeError, s)
termination_by bzMeasure s data
decreasing_by
  · -- the EOFError branch: the consumed end-of-stream marker is gone
    have heof : dec.eof = true := by
      by_contra hc
      simp [Bz2Dec.decompress, hc] at h
      rcases hs : scanBz2 blksz (dec.buf ++ data) with ⟨o, oc⟩
      rw [hs] at h
      cases oc <;> simp at h
    simp only [bzMeasure, h1, freshBz2, heof]
    simp
    omega
  · -- the continue branch: a full block or a marker was consumed
    have heof : dec.eof = false := by
      by_contra hc
      simp only [Bool.not_eq_false] at hc
      simp [Bz2Dec.decompress, hc] at h
    simp only [Bz2Dec.decompress, heof, Bool.false_eq_true, if_false] at h
    rcases hs : scanBz2 blksz (dec.buf ++ data) with ⟨o, oc⟩
    rw [hs] at h
    cases oc with
    | exhausted =>
      simp at h
      rcases h with ⟨h3, h4⟩
      subst h4
      simp_all
    | limit rest =>
      simp at h
      rcases h with ⟨h3, h4⟩
      subst h4
      have hl := scanBz2_limit_len hs
      simp only [bzMeasure, h1, heof]
      simp at hl ⊢
      have : 0 < blksz := by simp [blksz]
      omega
    | marker rest =>
      simp at h
      rcases h with ⟨h3, h4⟩
      subst h4
      have hl := scanBz2_marker_len hs
      simp only [bzMeasure, h1, heof]
      simp at hl ⊢
      omega

/-- `sd_write_bz2(data, session)` (lines 244–283): create the bzip2
decompressor on first use, then run the decompress-and-write loop. -/
def sd_write_bz2 (s : AgentState) (data : List CByte) (session : Option String)
    (clock : Nat → Nat) : Except Err Int × AgentState :=
  match check_expired s session (clock 0) with
  | (.error e, s') => (.error e, s')
  | (.ok _, s1) =>
    match s1.sdmux_controller with
    | none => (.ok (-1), s1)
    | some _ =>
      let s2 := if s1.bz2dec.isNone then { s1 with bz2dec := some freshBz2 } else s1
      bz2_loop s2 data (clock 1) clock 2

/-- `usb_ports(session)` (lines 486–488). -/
def usb_ports (s : AgentState) (session : Option String) (now : Nat) :
    Except Err Nat × AgentState :=
  match check_expired s session now with
  | (.error e, s') => (.error e, s')
  | (.ok _, s1) => (.ok s1.usb_switches.length, s1)

/-! ## Helper lemmas and ghost-trace observers -/

/-- Power-driver mutating invocations recorded in a trace. -/
def powerCalls (t : List DriverCall) : List DriverCall :=
  t.filter fun c => match c with
    | .powerOn => true
    | .powerOff => true
    | .powerToggle => true
    | _ => false

/-- Mux host/target swap invocations recorded in a trace. -/
def swapCalls (t : List DriverCall) : List DriverCall :=
  t.filter fun c => match c with
    | .muxToHost => true
    | .muxToTarget => true
    | _ => false

/-- Mux `open()` invocations recorded in a trace. -/
def muxOpenCalls (t : List DriverCall) : List DriverCall :=
  t.filter fun c => match c with
    | .muxOpen => true
    | _ => false

/-- Mux `close()` invocations recorded in a trace. -/
def muxCloseCalls (t : List DriverCall) : List DriverCall :=
  t.filter fun c => match c with
    | .muxClose => true
    | _ => false

/-- The byte sequence received by the mux driver's write primitive:
the concatenation of the payloads of all `write()` invocations. -/
def sink (t : List DriverCall) : List Nat :=
  (t.map fun c => match c with
    | .muxWrite d => d
    | _ => []).flatten

theorem sink_append (t u : List DriverCall) :
    sink (t ++ u) = sink t ++ sink u := by
  simp [sink]

/-- A call by a session other than the truthy owner, before the expiry,
leaves the state unchanged. -/
theorem check_expired_foreign_live {s : AgentState} {A : String}
    {B : Option String} {now e : Nat}
    (hA : s.lock_owner = some A) (hAne : A ≠ "") (hB : B ≠ some A)
    (he : s.lock_expiry = some e) (hlive : now < e) :
    check_expired s B now = (.ok (), s) := by
  have hbeq : (B == some A) = false := beq_eq_false_iff_ne.mpr hB
  simp [check_expired, pyTruthy, hA, hAne, hbeq, he, Nat.not_le.mpr hlive]

/-- A call by the recorded truthy owner slides the expiry, whatever the
current time. -/
theorem check_expired_owner {s : AgentState} {A : String} {now : Nat}
    (hA : s.lock_owner = some A) (hAne : A ≠ "") :
    check_expired s (some A) now
      = (.ok (), { s with lock_expiry := some (now + s.lock_timeout * 60) }) := by
  simp [check_expired, pyTruthy, hA, hAne]

/-- A call by a non-owner at or past the expiry silently reclaims the
lease. -/
theorem check_expired_reclaim {s : AgentState} {A : String}
    {B : Option String} {now e : Nat}
    (hA : s.lock_owner = some A) (hAne : A ≠ "") (hB : B ≠ some A)
    (he : s.lock_expiry = some e) (hexp : e ≤ now) :
    check_expired s B now = (.ok (), { s with lock_owner := none }) := by
  have hbeq : (B == some A) = false := beq_eq_false_iff_ne.mpr hB
  simp [check_expired, pyTruthy, hA, hAne, hbeq, he, hexp]

/-- With no owner recorded, the expiry check is a no-op. -/
theorem check_expired_no_owner {s : AgentState} {B : Option String} {now : Nat}
    (hA : s.lock_owner = none) :
    check_expired s B now = (.ok (), s) := by
  simp [check_expired, pyTruthy, hA]

/-- While a truthy foreign owner holds the lease, `_check_locked` reports
locked. -/
theorem check_locked_foreign {s : AgentState} {A : String} {B : Option String}
    (hA : s.lock_owner = some A) (hB : B ≠ some A) :
    check_locked s B = true := by
  have hbeq : (B == some A) = false := beq_eq_false_iff_ne.mpr hB
  simp [check_locked, hA, hbeq]

/-- While a live foreign lease is held, `power_locked` reports locked and
does not change the state. -/
theorem power_locked_foreign {s : AgentState} {A : String} {B : Option String}
    {now e : Nat}
    (hA : s.lock_owner = some A) (hAne : A ≠ "") (hB : B ≠ some A)
    (he : s.lock_expiry = some e) (hlive : now < e) :
    power_locked s B now = (.ok true, s) := by
  simp [power_locked, check_expired_foreign_live hA hAne hB he hlive,
        check_locked_foreign hA hB]

/-- While a live foreign lease is held, `sd_locked` reports locked and
does not change the state. -/
theorem sd_locked_foreign {s : AgentState} {A : String} {B : Option String}
    {now e : Nat}
    (hA : s.lock_owner = some A) (hAne : A ≠ "") (hB : B ≠ some A)
    (he : s.lock_expiry = some e) (hlive : now < e) :
    sd_locked s B now = (.ok true, s) := by
  simp [sd_locked, check_expired_foreign_live hA hAne hB he hlive,
        check_locked_foreign hA hB]

/-! ## Base state for concrete scenarios -/

/-- An agent as constructed by `__init__` (lines 22–45): no drivers, no
lease, default timeout 5 minutes, feedback interval 8, `self.zdata`
never assigned. -/
def baseState : AgentState where
  power_controller := none
  sdmux_controller := none
  console_logger := none
  sd_bytes_written := 0
  sd_mounted := false
  sd_opened := false
  bz2dec := none
  zdec := none
  zdata := .unset
  fbintvl := 8
  usb_switches := []
  lock_owner := none
  lock_timeout := 5
  lock_expiry := none
  trace := []
  errlog := []

/-! ## C2 -/

/-- C2 (code bug): `target_lock` acquires the lease without ever setting
the expiry, so the spec scenario "lock timeout 1; `target_lock(S1)` →
true; immediately `target_lock(S2)` → false" instead raises `TypeError`
at the second call: `_check_expired` evaluates `now >= self._lock_expiry`
with `self._lock_expiry = None`. -/
theorem c2_contention_raises_instead_of_false :
    target_lock { baseState with lock_timeout := 1 } (some "S1") 0
      = (.ok true, { baseState with lock_timeout := 1, lock_owner := some "S1" })
    ∧ (target_lock { baseState with lock_timeout := 1, lock_owner := some "S1" }
        (some "S2") 0).1 = .error .typeError := by
  constructor <;> rfl

/-! ## C3 -/

/-- A state whose lease for session `"A"` expired at time 10. -/
def c3s : AgentState :=
  { baseState with lock_owner := some "A", lock_expiry := some 10 }

/-- C3 (counterexample): with the lease of `"A"` expired at time 10 and
no intervening call, a call from `"A"` at time 100 does not find the
lease reclaimed: the owner check precedes the expiry check, so the call
silently renews the lease (expiry becomes 100 + 5·60 = 400) and `"A"`
remains the owner, contradicting "a call from the owner made after the
expiry time has already passed finds the lease already reclaimed (no
owner remains)". -/
theorem c3_owner_renews_after_expiry :
    (target_locked c3s (some "A") 100).2.lock_owner = some "A"
    ∧ (target_locked c3s (some "A") 100).2.lock_expiry = some 400
    ∧ (target_locked c3s (some "A") 100).1 = .ok false := by
  refine ⟨rfl, rfl, rfl⟩

/-- C3 (amended): a call from the current owner extends the expiry to
`now + timeout` — before the expiry as the claim states, but also after
it, because the owner test precedes the expiry test.  The lease is
reclaimed only when a non-owner session calls at `now ≥ expiry`; after
such a reclaim no owner remains and the former owner must (and can)
re-acquire via `target_lock`. -/
theorem c3_sliding_lease (s : AgentState) (A : String) (B : Option String)
    (now now2 e : Nat)
    (hA : s.lock_owner = some A) (hAne : A ≠ "") (hB : B ≠ some A)
    (he : s.lock_expiry = some e) (hexp : e ≤ now) :
    check_expired s (some A) now
      = (.ok (), { s with lock_expiry := some (now + s.lock_timeout * 60) })
    ∧ check_expired s B now = (.ok (), { s with lock_owner := none })
    ∧ target_lock { s with lock_owner := none } (some A) now2
      = (.ok true, { s with lock_owner := some A }) := by
  refine ⟨check_expired_owner hA hAne, check_expired_reclaim hA hAne hB he hexp, ?_⟩
  rw [target_lock, check_expired_no_owner rfl]
  rfl

/-- C3 witness: the amended statement at a concrete input. -/
theorem c3_witness :
    check_expired c3s (some "A") 100
      = (.ok (), { c3s with lock_expiry := some (100 + c3s.lock_timeout * 60) })
    ∧ check_expired c3s (some "B") 100 = (.ok (), { c3s with lock_owner := none })
    ∧ target_lock { c3s with lock_owner := none } (some "A") 7
      = (.ok true, { c3s with lock_owner := some "A" }) :=
  c3_sliding_lease c3s "A" (some "B") 100 7 10 rfl (by decide) (by decide) rfl
    (by decide)

/-! ## C1 -/

/-- A mux driver whose every operation succeeds. -/
def muxAllOk : MuxDriver where
  open_result := true
  close_result := true
  mount_result := true
  write_ok := true
  update_result := 1
  to_host_result := true
  to_target_result := true
  status_result := "HOST"

/-- A power driver reporting the target `OFF`. -/
def powerOffDrv : PowerDriver where
  on_result := true
  off_result := true
  toggle_result := "ON"
  status_result := "OFF"

/-- A state in which session `"A"` holds a live lease (expiry 1000) and
both drivers are configured. -/
def c1s : AgentState :=
  { baseState with sdmux_controller := some muxAllOk,
                   power_controller := some powerOffDrv,
                   lock_owner := some "A", lock_expiry := some 1000 }

/-- C1 (counterexample): while `"A"` holds a live, unexpired lease,
session `"B"`'s call to the write-pipeline operation `sd_open` does not
return the locked sentinel: it invokes the mux driver's `open()` (the
trace gains a `muxOpen` call) and returns its result `true`. -/
theorem c1_sd_open_not_gated :
    (sd_open c1s (some "B") 0).1 = .ok true
    ∧ (sd_open c1s (some "B") 0).2.trace = [DriverCall.muxOpen] := by
  constructor <;> rfl

/-- C1 (amended): while `A` holds a live lease, the power operations
invoked by `B` return the locked sentinel (`false` / `POWER_LOCKED`)
without invoking the power driver, and the host/target swap operations
return `false` without invoking the driver swap primitives — until `A`
unlocks or the lease expires unrenewed.  The write-pipeline operations
are, however, not gated by the lock: `sd_open` called by `B` invokes the
driver's `open()` and returns its result, and `sd_write_raw` called by
`B` delivers its buffer to the driver's `write()`. -/
theorem c1_lease_gating (s : AgentState) (A B : String) (d : List Nat)
    (now e : Nat) (p : PowerDriver) (m : MuxDriver)
    (hA : s.lock_owner = some A) (hAne : A ≠ "") (hB : B ≠ A)
    (he : s.lock_expiry = some e) (hlive : now < e)
    (hp : s.power_controller = some p) (hm : s.sdmux_controller = some m) :
    ((target_on s (some B) now).1 = .ok false
      ∧ powerCalls (target_on s (some B) now).2.trace = powerCalls s.trace)
    ∧ ((target_off s (some B) now).1 = .ok false
      ∧ powerCalls (target_off s (some B) now).2.trace = powerCalls s.trace)
    ∧ ((target_toggle s (some B) now).1 = .ok POWER_LOCKED
      ∧ powerCalls (target_toggle s (some B) now).2.trace = powerCalls s.trace)
    ∧ ((sd_to_host s (some B) now).1 = .ok false
      ∧ swapCalls (sd_to_host s (some B) now).2.trace = swapCalls s.trace)
    ∧ ((sd_to_target s (some B) now).1 = .ok false
      ∧ swapCalls (sd_to_target s (some B) now).2.trace = swapCalls s.trace)
    ∧ ((sd_open s (some B) now).1 = .ok m.open_result
      ∧ muxOpenCalls (sd_open s (some B) now).2.trace
          = muxOpenCalls s.trace ++ [DriverCall.muxOpen])
    ∧ sink (sd_write_raw s d (some B) now).2.trace = sink s.trace ++ d := by
  have hA2 : (A == "") = false := beq_eq_false_iff_ne.mpr hAne
  have hBo : ((some B : Option String) == some A) = false := by
    simp [hB]
  have hNo : ((none : Option String) == some A) = false := by simp
  have hle : ¬ e ≤ now := Nat.not_le.mpr hlive
  refine ⟨?_, ?_, ?_, ?_, ?_, ?_, ?_⟩
  · cases hc : s.console_logger <;>
      simp [target_on, target_on_core, power_locked, check_expired,
            check_locked, pyTruthy, hA, hA2, hBo, he, hle, hc, powerCalls]
  · simp [target_off, power_locked, check_expired, check_locked, pyTruthy,
          hA, hA2, hBo, he, hle, powerCalls]
  · simp [target_toggle, power_locked, check_expired, check_locked, pyTruthy,
          hA, hA2, hBo, he, hle, hp, powerCalls]
  · simp [sd_to_host, sd_locked, check_expired, check_locked, pyTruthy,
          hA, hA2, hBo, he, hle, swapCalls]
  · simp [sd_to_target, sd_locked, check_expired, check_locked, pyTruthy,
          hA, hA2, hBo, he, hle, swapCalls]
  · cases ho : s.sd_opened <;>
      simp [sd_open, sd_close, check_expired, check_locked, pyTruthy,
            hA, hA2, hBo, hNo, he, hle, hm, ho, muxOpenCalls]
  · cases hw : m.write_ok <;>
      simp [sd_write_raw, check_expired, check_locked, pyTruthy,
            hA, hA2, hBo, he, hle, hm, hw, sink]

/-- C1 witness: the amended statement at a concrete input. -/
theorem c1_witness :
    ((target_on c1s (some "B") 0).1 = .ok false
      ∧ powerCalls (target_on c1s (some "B") 0).2.trace = powerCalls c1s.trace)
    ∧ ((target_off c1s (some "B") 0).1 = .ok false
      ∧ powerCalls (target_off c1s (some "B") 0).2.trace = powerCalls c1s.trace)
    ∧ ((target_toggle c1s (some "B") 0).1 = .ok POWER_LOCKED
      ∧ powerCalls (target_toggle c1s (some "B") 0).2.trace = powerCalls c1s.trace)
    ∧ ((sd_to_host c1s (some "B") 0).1 = .ok false
      ∧ swapCalls (sd_to_host c1s (some "B") 0).2.trace = swapCalls c1s.trace)
    ∧ ((sd_to_target c1s (some "B") 0).1 = .ok false
      ∧ swapCalls (sd_to_target c1s (some "B") 0).2.trace = swapCalls c1s.trace)
    ∧ ((sd_open c1s (some "B") 0).1 = .ok muxAllOk.open_result
      ∧ muxOpenCalls (sd_open c1s (some "B") 0).2.trace
          = muxOpenCalls c1s.trace ++ [DriverCall.muxOpen])
    ∧ sink (sd_write_raw c1s [7] (some "B") 0).2.trace = sink c1s.trace ++ [7] :=
  c1_lease_gating c1s "A" "B" [7] 0 1000 powerOffDrv muxAllOk rfl (by decide)
    (by decide) rfl (by decide) rfl rfl

/-! ## C9 -/

/-- C9 (code bug): the facade is not exception-free.  With no power
controller configured, `target_toggle` reaches
`self.power_controller.POWER_LOCKED` on `None` and raises
`AttributeError` instead of returning the `LOCKED` sentinel; and
`sd_write_gz` called with an empty buffer on a fresh agent (mux
configured) reads the never-assigned `self.zdata` and raises
`AttributeError` instead of returning a negative status. -/
theorem c9_facade_raises :
    (target_toggle baseState (some "S") 0).1 = .error .attributeError
    ∧ (sd_write_gz { baseState with sdmux_controller := some muxAllOk } []
        (some "S") (fun _ => 0)).1 = .error .attributeError := by
  constructor <;> rfl

/-! ## C4 -/

/-- The power state as observed through `target_status`: `"???"` without
a driver, else the driver-reported state. -/
def powerStr (s : AgentState) : String :=
  match s.power_controller with
  | none => "???"
  | some p => p.status_result

/-- The disjunction of conditions from the claim: lease-locked for this
session, mux driver absent, power driver absent, power state not `OFF`,
or a write session open. -/
def sd_locked_conds (s : AgentState) (session : Option String) : Bool :=
  check_locked s session || s.sdmux_controller.isNone
    || s.power_controller.isNone || (powerStr s != "OFF") || s.sd_opened

theorem pyTruthy_none : pyTruthy none = false := rfl

/-- `_check_expired` never raises on a state satisfying the lease
invariant. -/
theorem check_expired_ok (s : AgentState) (B : Option String) (now : Nat)
    (hwf : LockWF s) : ∃ s', check_expired s B now = (.ok (), s') := by
  by_cases h1 : pyTruthy s.lock_owner
  · by_cases h2 : (B == s.lock_owner) = true
    · simp only [check_expired, h1, h2, if_true]
      exact ⟨_, rfl⟩
    · have hs := hwf h1
      rw [Bool.not_eq_true] at h2
      rcases he : s.lock_expiry with _ | e
      · rw [he] at hs; simp at hs
      · by_cases h3 : e ≤ now
        · simp only [check_expired, h1, h2, he, if_true, Bool.false_eq_true,
            if_false, h3]
          exact ⟨_, rfl⟩
        · simp only [check_expired, h1, h2, he, if_true, Bool.false_eq_true,
            if_false, h3]
          exact ⟨_, rfl⟩
  · rw [Bool.not_eq_true] at h1
    simp only [check_expired, h1, Bool.false_eq_true, if_false]
    exact ⟨_, rfl⟩

/-- `_check_expired` touches only the lease fields. -/
theorem check_expired_frame {s s' : AgentState} {B : Option String} {now : Nat}
    (hck : check_expired s B now = (.ok (), s')) :
    s'.power_controller = s.power_controller
    ∧ s'.sdmux_controller = s.sdmux_controller
    ∧ s'.console_logger = s.console_logger
    ∧ s'.sd_bytes_written = s.sd_bytes_written
    ∧ s'.sd_mounted = s.sd_mounted
    ∧ s'.sd_opened = s.sd_opened
    ∧ s'.bz2dec = s.bz2dec ∧ s'.zdec = s.zdec ∧ s'.zdata = s.zdata
    ∧ s'.fbintvl = s.fbintvl ∧ s'.usb_switches = s.usb_switches
    ∧ s'.lock_timeout = s.lock_timeout
    ∧ s'.trace = s.trace ∧ s'.errlog = s.errlog := by
  unfold check_expired at hck
  split at hck
  · split at hck
    · simp at hck
      subst hck
      simp
    · split at hck
      · simp at hck
      · split at hck <;>
          · simp at hck
            subst hck
            simp
  · simp at hck
    subst hck
    simp

/-- `_check_expired` preserves the lease invariant. -/
theorem check_expired_wf {s s' : AgentState} {B : Option String} {now : Nat}
    (hwf : LockWF s) (hck : check_expired s B now = (.ok (), s')) :
    LockWF s' := by
  unfold check_expired at hck
  split at hck
  · split at hck
    · simp at hck
      subst hck
      intro _
      simp
    · split at hck
      · simp at hck
      · split at hck <;>
          · simp at hck
            subst hck
            first
            | exact hwf
            | (intro h; simp [pyTruthy] at h)
  · simp at hck
    subst hck
    exact hwf

/-- A second `_check_expired` with the same session and time is a
no-op. -/
theorem check_expired_idem {s s' : AgentState} {B : Option String} {now : Nat}
    (hck : check_expired s B now = (.ok (), s')) :
    check_expired s' B now = (.ok (), s') := by
  unfold check_expired at hck ⊢
  split at hck
  · rename_i h1
    split at hck
    · rename_i h2
      simp at hck
      subst hck
      simp only [pyTruthy] at h1 ⊢
      simp_all
    · rename_i h2
      split at hck
      · simp at hck
      · split at hck <;> rename_i h3 <;> simp at hck <;> subst hck
        · simp [pyTruthy]
        · simp_all
  · rename_i h1
    simp at hck
    subst hck
    simp_all

/-- Value and state shape of `target_status` on a well-formed state. -/
theorem target_status_spec (s : AgentState) (B : Option String) (now : Nat)
    (hwf : LockWF s) :
    ∃ u, target_status s B now = (.ok (powerStr s), u)
      ∧ u.power_controller = s.power_controller
      ∧ u.sdmux_controller = s.sdmux_controller
      ∧ u.sd_opened = s.sd_opened ∧ u.sd_mounted = s.sd_mounted
      ∧ swapCalls u.trace = swapCalls s.trace
      ∧ LockWF u := by
  obtain ⟨s', hck⟩ := check_expired_ok s B now hwf
  have hwf' : LockWF s' := check_expired_wf hwf hck
  obtain ⟨f1, f2, _, _, f5, f6, _, _, _, _, _, _, f13, _⟩ :=
    check_expired_frame hck
  unfold target_status
  simp only [hck]
  cases hp : s.power_controller with
  | none =>
    have hps : s'.power_controller = none := f1.trans hp
    simp only [hps]
    exact ⟨s', by simp [powerStr, hp], hps, f2, f6, f5,
      by simp [swapCalls, f13], hwf'⟩
  | some p =>
    have hps : s'.power_controller = some p := f1.trans hp
    simp only [hps]
    refine ⟨{ s' with trace := s'.trace ++ [DriverCall.powerStatus] },
      by simp [powerStr, hp, hps], hps, f2, f6, f5, ?_, ?_⟩
    · simp [swapCalls, f13]
    · intro h
      exact hwf' h

/-- Value and state shape of `sd_locked` on a well-formed state whose
expiry processing yields `s'`: the result is exactly the disjunction of
the claim's conditions evaluated on `s'`. -/
theorem sd_locked_spec {s s' : AgentState} {session : Option String} {now : Nat}
    (hwf : LockWF s) (hck : check_expired s session now = (.ok (), s')) :
    ∃ u, sd_locked s session now = (.ok (sd_locked_conds s' session), u)
      ∧ u.sdmux_controller = s'.sdmux_controller
      ∧ u.sd_opened = s'.sd_opened ∧ u.sd_mounted = s'.sd_mounted
      ∧ swapCalls u.trace = swapCalls s'.trace
      ∧ LockWF u := by
  have hwf' : LockWF s' := check_expired_wf hwf hck
  unfold sd_locked
  simp only [hck]
  by_cases hcl : check_locked s' session
  · exact ⟨s', by simp [hcl, sd_locked_conds], rfl, rfl, rfl, rfl, hwf'⟩
  · simp only [hcl, Bool.false_eq_true, if_false]
    by_cases hmu : s'.sdmux_controller.isNone
    · exact ⟨s', by simp [hcl, hmu, sd_locked_conds], rfl, rfl, rfl, rfl, hwf'⟩
    · simp only [hmu, Bool.false_eq_true, if_false]
      by_cases hpw : s'.power_controller.isNone
      · exact ⟨s', by simp [hcl, hmu, hpw, sd_locked_conds], rfl, rfl, rfl, rfl,
          hwf'⟩
      · simp only [hpw, Bool.false_eq_true, if_false]
        obtain ⟨u, hts, g1, g2, g3, g4, g5, hwfu⟩ :=
          target_status_spec s' none now hwf'
        simp only [hts]
        by_cases hst : powerStr s' != "OFF"
        · exact ⟨u, by simp [hcl, hmu, hpw, hst, sd_locked_conds], g2, g3, g4,
            g5, hwfu⟩
        · simp only [hst, Bool.false_eq_true, if_false]
          by_cases hop : u.sd_opened
          · have hop' : s'.sd_opened = true := by rw [← g3]; exact hop
            exact ⟨u, by simp [hcl, hmu, hpw, hst, hop, hop', sd_locked_conds],
              g2, g3, g4, g5, hwfu⟩
          · have hop' : s'.sd_opened = false := by
              rw [← g3]; simp at hop; exact hop
            exact ⟨u, by simp [hcl, hmu, hpw, hst, hop, hop', sd_locked_conds],
              g2, g3, g4, g5, hwfu⟩

/-- C4: `sd_locked(session)` is true exactly when, on the state after
expiry processing, at least one of the claim's conditions holds
(lease-locked for this session, no mux driver, no power driver, power
state not `OFF`, or a write session open); and whenever that disjunction
holds, `sd_to_host` and `sd_to_target` return `false` without invoking
the driver's `to_host`/`to_target` primitive. -/
theorem c4_swap_gating (s s' : AgentState) (session : Option String)
    (now : Nat) (hwf : LockWF s)
    (hck : check_expired s session now = (.ok (), s')) :
    (sd_locked s session now).1 = .ok (sd_locked_conds s' session)
    ∧ (sd_locked_conds s' session = true →
        (sd_to_host s session now).1 = .ok false
        ∧ swapCalls (sd_to_host s session now).2.trace = swapCalls s.trace
        ∧ (sd_to_target s session now).1 = .ok false
        ∧ swapCalls (sd_to_target s session now).2.trace = swapCalls s.trace) := by
  have hwf' : LockWF s' := check_expired_wf hwf hck
  have hck' : check_expired s' session now = (.ok (), s') :=
    check_expired_idem hck
  obtain ⟨f1, f2, _, _, f5, f6, _, _, _, _, _, _, f13, _⟩ :=
    check_expired_frame hck
  obtain ⟨u, hsl, g2, g3, g4, g5, hwfu⟩ := sd_locked_spec hwf hck
  obtain ⟨u', hsl', g2', g3', g4', g5', hwfu'⟩ := sd_locked_spec hwf' hck'
  refine ⟨by rw [hsl], fun hc => ?_⟩
  refine ⟨?_, ?_, ?_, ?_⟩
  · simp only [sd_to_host, hck, hsl', hc]
    simp
  · simp only [sd_to_host, hck, hsl', hc]
    simp only [Bool.true_eq_false, if_false]
    rw [g5', f13]
  · simp only [sd_to_target, hck, hsl', hc]
    simp
  · simp only [sd_to_target, hck, hsl', hc]
    simp only [Bool.true_eq_false, if_false]
    rw [g5', f13]

/-- C4 witness: the statement at a concrete input (a foreign session on
a state with a live lease held by `"A"`). -/
theorem c4_witness :
    ((sd_locked c1s (some "B") 0).1 = .ok (sd_locked_conds c1s (some "B"))
    ∧ (sd_locked_conds c1s (some "B") = true →
        (sd_to_host c1s (some "B") 0).1 = .ok false
        ∧ swapCalls (sd_to_host c1s (some "B") 0).2.trace = swapCalls c1s.trace
        ∧ (sd_to_target c1s (some "B") 0).1 = .ok false
        ∧ swapCalls (sd_to_target c1s (some "B") 0).2.trace
            = swapCalls c1s.trace))
    ∧ sd_locked_conds c1s (some "B") = true :=
  ⟨c4_swap_gating c1s c1s (some "B") 0 (by decide) (by rfl), by decide⟩

/-! ## C5 -/

/-- C5: with a mux driver configured whose `close()` succeeds and a
well-formed lease state, `sd_close` returns `true`, discards both
decoder states, leaves `opened = false`, and calls the driver `close()`
exactly when a write session was open; an immediately repeated
`sd_close` returns `true` again, does not invoke the driver `close()`
again, and leaves the state exactly as after the first call. -/
theorem c5_sd_close_idempotent (s : AgentState) (session : Option String)
    (now : Nat) (m : MuxDriver) (hwf : LockWF s)
    (hm : s.sdmux_controller = some m) (hcl : m.close_result = true) :
    (sd_close s session now).1 = .ok true
    ∧ (sd_close s session now).2.bz2dec = none
    ∧ (sd_close s session now).2.zdec = none
    ∧ (sd_close s session now).2.sd_opened = false
    ∧ muxCloseCalls (sd_close s session now).2.trace
        = muxCloseCalls s.trace
          ++ (if s.sd_opened then [DriverCall.muxClose] else [])
    ∧ sd_close (sd_close s session now).2 session now
        = (.ok true, (sd_close s session now).2) := by
  by_cases h1 : pyTruthy s.lock_owner
  · by_cases h2 : (session == s.lock_owner) = true
    · cases ho : s.sd_opened <;>
        simp [sd_close, check_expired, h1, h2, hm, hcl, ho, muxCloseCalls]
    · rw [Bool.not_eq_true] at h2
      have hs := hwf h1
      rcases he : s.lock_expiry with _ | e
      · rw [he] at hs; simp at hs
      · by_cases h3 : e ≤ now
        · cases ho : s.sd_opened <;>
            simp [sd_close, check_expired, pyTruthy_none, h1, h2, he, h3, hm,
              hcl, ho, muxCloseCalls]
        · cases ho : s.sd_opened <;>
            simp [sd_close, check_expired, h1, h2, he, h3, hm, hcl, ho,
              muxCloseCalls]
  · rw [Bool.not_eq_true] at h1
    cases ho : s.sd_opened <;>
      simp [sd_close, check_expired, h1, hm, hcl, ho, muxCloseCalls]

/-- C5 witness: the statement at a concrete input with an open write
session. -/
theorem c5_witness :
    (sd_close { c1s with sd_opened := true } (some "A") 3).1 = .ok true
    ∧ (sd_close { c1s with sd_opened := true } (some "A") 3).2.bz2dec = none
    ∧ (sd_close { c1s with sd_opened := true } (some "A") 3).2.zdec = none
    ∧ (sd_close { c1s with sd_opened := true } (some "A") 3).2.sd_opened = false
    ∧ muxCloseCalls (sd_close { c1s with sd_opened := true } (some "A") 3).2.trace
        = muxCloseCalls ({ c1s with sd_opened := true } : AgentState).trace
          ++ (if ({ c1s with sd_opened := true } : AgentState).sd_opened then
                [DriverCall.muxClose] else [])
    ∧ sd_close (sd_close { c1s with sd_opened := true } (some "A") 3).2
          (some "A") 3
        = (.ok true, (sd_close { c1s with sd_opened := true } (some "A") 3).2) :=
  c5_sd_close_idempotent { c1s with sd_opened := true } (some "A") 3 muxAllOk
    (by decide) rfl rfl

/-! ## C8 -/

/-- A state with a 3-switch USB registry. -/
def c8s : AgentState :=
  { baseState with
      usb_switches := [⟨"msd", false⟩, ⟨"net", true⟩, ⟨"kbd", false⟩] }

/-- C8 (counterexample): `usb_on(0)` does return without raising and
changes nothing, but it does not report any error: the `ndx > 0` guard
silently skips index 0, so the error log stays empty, contradicting
"the call ... reports the error".  Likewise `usb_status(0)` returns
`"???"`, not an error report. -/
theorem c8_index0_silently_ignored :
    usb_on c8s 0 (some "S") 0 = (.ok (), c8s)
    ∧ (usb_on c8s 0 (some "S") 0).2.errlog = []
    ∧ usb_status c8s 0 (some "S") 0 = (.ok "???", c8s) := by
  refine ⟨rfl, rfl, rfl⟩

/-- C8 (amended): a USB switch operation called with index 0 returns
without raising and leaves the whole state — switches and error log —
unchanged (no error is reported; `usb_status` returns `"???"`); called
with an index greater than the registry size it returns without raising,
reports the error, and leaves every switch's state unchanged, with
`usb_status` returning `"ERR"`. -/
theorem c8_usb_invalid_index (s s' : AgentState) (ndx : Nat)
    (session : Option String) (now : Nat)
    (hck : check_expired s session now = (.ok (), s')) :
    (ndx = 0 →
        usb_on s ndx session now = (.ok (), s')
      ∧ usb_off s ndx session now = (.ok (), s')
      ∧ usb_toggle s ndx session now = (.ok (), s')
      ∧ usb_status s ndx session now = (.ok "???", s'))
    ∧ (s.usb_switches.length < ndx →
        usb_on s ndx session now = (.ok (), { s' with
          errlog := s'.errlog ++ ["invalid USB switch #" ++ toString ndx] })
      ∧ usb_off s ndx session now = (.ok (), { s' with
          errlog := s'.errlog ++ ["invalid USB switch #" ++ toString ndx] })
      ∧ usb_toggle s ndx session now = (.ok (), { s' with
          errlog := s'.errlog ++ ["invalid USB switch #" ++ toString ndx] })
      ∧ usb_status s ndx session now = (.ok "ERR", { s' with
          errlog := s'.errlog ++ ["invalid USB switch #" ++ toString ndx] })) := by
  obtain ⟨_, _, _, _, _, _, _, _, _, _, f11, _, _, _⟩ :=
    check_expired_frame hck
  constructor
  · intro h0
    subst h0
    simp [usb_on, usb_off, usb_toggle, usb_status, hck]
  · intro hlen
    have h0 : 0 < ndx := by omega
    have hnl : ¬(ndx - 1 < s'.usb_switches.length) := by
      rw [f11]; omega
    simp [usb_on, usb_off, usb_toggle, usb_status, hck, h0, hnl]

/-- C8 witness: the amended statement at the claim's concrete input
(`usb_status(5)` on a 3-switch registry yields `"ERR"`). -/
theorem c8_witness :
    c8s.usb_switches.length < 5
    ∧ usb_status c8s 5 (some "S") 0 = (.ok "ERR", { c8s with
        errlog := c8s.errlog ++ ["invalid USB switch #" ++ toString (5 : Nat)] }) :=
  ⟨by decide,
   ((c8_usb_invalid_index c8s c8s 5 (some "S") 0 rfl).2 (by decide)).2.2.2⟩

/-! ## C10: the mounted flag is never cleared -/

theorem check_expired_mounted (s : AgentState) (B : Option String) (now : Nat) :
    (check_expired s B now).2.sd_mounted = s.sd_mounted := by
  unfold check_expired
  split
  · split
    · rfl
    · split
      · rfl
      · split <;> rfl
  · rfl

theorem power_locked_mounted (s : AgentState) (B : Option String) (now : Nat) :
    (power_locked s B now).2.sd_mounted = s.sd_mounted := by
  unfold power_locked
  split <;> rename_i s1 heq <;>
    (have hkm := check_expired_mounted s B now; rw [heq] at hkm)
  · exact hkm
  · split
    · exact hkm
    · split <;> exact hkm

theorem target_status_mounted (s : AgentState) (B : Option String) (now : Nat) :
    (target_status s B now).2.sd_mounted = s.sd_mounted := by
  unfold target_status
  rcases hck : check_expired s B now with ⟨r, s1⟩
  have hkm := check_expired_mounted s B now
  rw [hck] at hkm
  cases r <;> simp at hkm ⊢ <;> [exact hkm; skip]
  split <;> simp [hkm]

theorem sd_status_mounted (s : AgentState) (B : Option String) (now : Nat) :
    (sd_status s B now).2.sd_mounted = s.sd_mounted := by
  unfold sd_status
  rcases hck : check_expired s B now with ⟨r, s1⟩
  have hkm := check_expired_mounted s B now
  rw [hck] at hkm
  cases r <;> simp at hkm ⊢ <;> [exact hkm; skip]
  split <;> simp [hkm]

theorem sd_locked_mounted (s : AgentState) (B : Option String) (now : Nat) :
    (sd_locked s B now).2.sd_mounted = s.sd_mounted := by
  unfold sd_locked
  split <;> rename_i s1 heq <;>
    (have hkm := check_expired_mounted s B now; rw [heq] at hkm)
  · exact hkm
  · split
    · exact hkm
    · split
      · exact hkm
      · split
        · exact hkm
        · split <;> rename_i s2 hts <;>
            (have htm := target_status_mounted s1 none now; rw [hts] at htm)
          · exact htm.trans hkm
          · split
            · exact htm.trans hkm
            · split <;> exact htm.trans hkm

theorem sd_close_mounted (s : AgentState) (B : Option String) (now : Nat) :
    (sd_close s B now).2.sd_mounted = s.sd_mounted := by
  unfold sd_close
  rcases hck : check_expired s B now with ⟨r, s1⟩
  have hkm := check_expired_mounted s B now
  rw [hck] at hkm
  cases r <;> simp at hkm ⊢ <;> [exact hkm; skip]
  split
  · simp [hkm]
  · split <;> simp [hkm]

theorem target_lock_mounted (s : AgentState) (B : Option String) (now : Nat) :
    (target_lock s B now).2.sd_mounted = s.sd_mounted := by
  unfold target_lock
  rcases hck : check_expired s B now with ⟨r, s1⟩
  have hkm := check_expired_mounted s B now
  rw [hck] at hkm
  cases r <;> simp at hkm ⊢ <;> [exact hkm; skip]
  split <;> simp [hkm]
  split <;> simp [hkm]

theorem target_unlock_mounted (s : AgentState) (B : Option String) (now : Nat) :
    (target_unlock s B now).2.sd_mounted = s.sd_mounted := by
  unfold target_unlock
  rcases hck : check_expired s B now with ⟨r, s1⟩
  have hkm := check_expired_mounted s B now
  rw [hck] at hkm
  cases r <;> simp at hkm ⊢ <;> [exact hkm; skip]
  split <;> simp [hkm]

theorem target_locked_mounted (s : AgentState) (B : Option String) (now : Nat) :
    (target_locked s B now).2.sd_mounted = s.sd_mounted := by
  unfold target_locked
  rcases hck : check_expired s B now with ⟨r, s1⟩
  have hkm := check_expired_mounted s B now
  rw [hck] at hkm
  cases r <;> simp at hkm ⊢ <;> [exact hkm; skip]
  exact hkm

theorem sd_bytes_written_mounted (s : AgentState) (B : Option String)
    (now : Nat) :
    (sd_bytes_written s B now).2.sd_mounted = s.sd_mounted := by
  unfold sd_bytes_written
  rcases hck : check_expired s B now with ⟨r, s1⟩
  have hkm := check_expired_mounted s B now
  rw [hck] at hkm
  cases r <;> simp at hkm ⊢ <;> [exact hkm; skip]
  exact hkm

theorem target_on_core_mounted (s : AgentState) (B : Option String)
    (now : Nat) :
    (target_on_core s B now).2.sd_mounted = s.sd_mounted := by
  unfold target_on_core
  split <;> rename_i s1 heq <;>
    (have hkm := check_expired_mounted s B now; rw [heq] at hkm)
  · exact hkm
  · split <;> rename_i s2 hpl <;>
      (have hpm := power_locked_mounted s1 B now; rw [hpl] at hpm)
    · exact hpm.trans hkm
    · split
      · split <;> exact hpm.trans hkm
      · exact hpm.trans hkm

theorem target_on_mounted (s : AgentState) (B : Option String) (now : Nat) :
    (target_on s B now).2.sd_mounted = s.sd_mounted := by
  unfold target_on
  split
  · have h := target_on_core_mounted
      { s with trace := s.trace ++ [DriverCall.consoleResume] } B now
    simpa using h
  · exact target_on_core_mounted s B now

theorem target_off_mounted (s : AgentState) (B : Option String) (now : Nat) :
    (target_off s B now).2.sd_mounted = s.sd_mounted := by
  unfold target_off
  split <;> rename_i s1 heq <;>
    (have hkm := check_expired_mounted s B now; rw [heq] at hkm)
  · exact hkm
  · split <;> rename_i s2 hpl <;>
      (have hpm := power_locked_mounted s1 B now; rw [hpl] at hpm)
    · exact hpm.trans hkm
    · dsimp only
      repeat' split
      all_goals exact hpm.trans hkm

theorem target_toggle_mounted (s : AgentState) (B : Option String)
    (now : Nat) :
    (target_toggle s B now).2.sd_mounted = s.sd_mounted := by
  unfold target_toggle
  split <;> rename_i s1 heq <;>
    (have hkm := check_expired_mounted s B now; rw [heq] at hkm)
  · exact hkm
  · split <;> rename_i s2 hpl <;>
      (have hpm := power_locked_mounted s1 B now; rw [hpl] at hpm)
    · exact hpm.trans hkm
    · dsimp only
      repeat' split
      all_goals exact hpm.trans hkm

theorem sd_mount_mounted (s : AgentState) (part B : Option String)
    (now : Nat) (hmt : s.sd_mounted = true) :
    (sd_mount s part B now).2.sd_mounted = true := by
  unfold sd_mount
  split <;> rename_i s1 heq <;>
    (have hkm2 := check_expired_mounted s B now; rw [heq] at hkm2)
  · exact hkm2.trans hmt
  · have h1 : s1.sd_mounted = true := hkm2.trans hmt
    simp [h1]

theorem sd_update_mounted (s : AgentState) (dst : Option String)
    (offset : Nat) (d : List Nat) (B : Option String) (now : Nat) :
    (sd_update s dst offset d B now).2.sd_mounted = s.sd_mounted := by
  unfold sd_update
  split <;> rename_i s1 heq <;>
    (have hkm := check_expired_mounted s B now; rw [heq] at hkm)
  · exact hkm
  · dsimp only
    repeat' split
    all_goals exact hkm

theorem sd_open_mounted (s : AgentState) (B : Option String) (now : Nat) :
    (sd_open s B now).2.sd_mounted = s.sd_mounted := by
  unfold sd_open
  split <;> rename_i s1 heq <;>
    (have hkm := check_expired_mounted s B now; rw [heq] at hkm)
  · exact hkm
  · split
    · exact hkm
    · split <;> rename_i s2 hcl <;>
        (have hcm := sd_close_mounted s1 none now; rw [hcl] at hcm)
      · exact hcm.trans hkm
      · dsimp only
        repeat' split
        all_goals exact hcm.trans hkm

theorem sd_to_host_mounted (s : AgentState) (B : Option String) (now : Nat) :
    (sd_to_host s B now).2.sd_mounted = s.sd_mounted := by
  unfold sd_to_host
  split <;> rename_i s1 heq <;>
    (have hkm := check_expired_mounted s B now; rw [heq] at hkm)
  · exact hkm
  · split <;> rename_i s2 hsl <;>
      (have hsm := sd_locked_mounted s1 B now; rw [hsl] at hsm)
    · exact hsm.trans hkm
    · repeat' split
      all_goals exact hsm.trans hkm

theorem sd_to_target_mounted (s : AgentState) (B : Option String)
    (now : Nat) :
    (sd_to_target s B now).2.sd_mounted = s.sd_mounted := by
  unfold sd_to_target
  split <;> rename_i s1 heq <;>
    (have hkm := check_expired_mounted s B now; rw [heq] at hkm)
  · exact hkm
  · split <;> rename_i s2 hsl <;>
      (have hsm := sd_locked_mounted s1 B now; rw [hsl] at hsm)
    · exact hsm.trans hkm
    · split
      · split <;> rename_i s3 hcl <;>
          (have hcm := sd_close_mounted s2 none now; rw [hcl] at hcm)
        · exact hcm.trans (hsm.trans hkm)
        · repeat' split
          all_goals exact hcm.trans (hsm.trans hkm)
      · exact hsm.trans hkm

theorem sd_toggle_swap_mounted (locked : Bool) (s2 : AgentState)
    (B : Option String) (now : Nat) :
    (sd_toggle_swap locked s2 B now).2.sd_mounted = s2.sd_mounted := by
  unfold sd_toggle_swap
  split
  · split <;> rename_i s3 hst <;>
      (have hstm := sd_status_mounted s2 B now; rw [hst] at hstm)
    · exact hstm
    · repeat' split
      all_goals exact hstm
  · rfl

theorem sd_toggle_mounted (s : AgentState) (B : Option String) (now : Nat) :
    (sd_toggle s B now).2.sd_mounted = s.sd_mounted := by
  unfold sd_toggle
  split <;> rename_i s1 heq <;>
    (have hkm := check_expired_mounted s B now; rw [heq] at hkm)
  · exact hkm
  · split <;> rename_i locked s2 hsl
    case _ =>
      have hsm := sd_locked_mounted s1 B now
      rw [hsl] at hsm
      exact hsm.trans hkm
    case _ =>
      have hsm := sd_locked_mounted s1 B now
      rw [hsl] at hsm
      split <;> rename_i s4 hsw <;>
        (have hswm := sd_toggle_swap_mounted locked s2 B now;
         rw [hsw] at hswm)
      · exact hswm.trans (hsm.trans hkm)
      · exact (sd_status_mounted s4 B now).trans
          (hswm.trans (hsm.trans hkm))

theorem sd_write_raw_mounted (s : AgentState) (d : List Nat)
    (B : Option String) (now : Nat) :
    (sd_write_raw s d B now).2.sd_mounted = s.sd_mounted := by
  unfold sd_write_raw
  split <;> rename_i s1 heq <;>
    (have hkm := check_expired_mounted s B now; rw [heq] at hkm)
  · exact hkm
  · dsimp only
    repeat' split
    all_goals exact hkm

theorem usb_on_mounted (s : AgentState) (ndx : Nat) (B : Option String)
    (now : Nat) :
    (usb_on s ndx B now).2.sd_mounted = s.sd_mounted := by
  unfold usb_on
  split <;> rename_i s1 heq <;>
    (have hkm := check_expired_mounted s B now; rw [heq] at hkm)
  · exact hkm
  · repeat' split
    all_goals exact hkm

theorem usb_off_mounted (s : AgentState) (ndx : Nat) (B : Option String)
    (now : Nat) :
    (usb_off s ndx B now).2.sd_mounted = s.sd_mounted := by
  unfold usb_off
  split <;> rename_i s1 heq <;>
    (have hkm := check_expired_mounted s B now; rw [heq] at hkm)
  · exact hkm
  · repeat' split
    all_goals exact hkm

theorem usb_toggle_mounted (s : AgentState) (ndx : Nat) (B : Option String)
    (now : Nat) :
    (usb_toggle s ndx B now).2.sd_mounted = s.sd_mounted := by
  unfold usb_toggle
  split <;> rename_i s1 heq <;>
    (have hkm := check_expired_mounted s B now; rw [heq] at hkm)
  · exact hkm
  · repeat' split
    all_goals exact hkm

theorem usb_status_mounted (s : AgentState) (ndx : Nat) (B : Option String)
    (now : Nat) :
    (usb_status s ndx B now).2.sd_mounted = s.sd_mounted := by
  unfold usb_status
  split <;> rename_i s1 heq <;>
    (have hkm := check_expired_mounted s B now; rw [heq] at hkm)
  · exact hkm
  · repeat' split
    all_goals exact hkm

theorem gz_loop_mounted (s : AgentState) (data : List Nat) (start : Nat)
    (clock : Nat → Nat) (i : Nat) :
    (gz_loop s data start clock i).2.sd_mounted = s.sd_mounted := by
  induction s, data, start, clock, i using gz_loop.induct with
  | case1 s data start clock i zd m hz hm =>
    unfold gz_loop
    simp only [hm, hz]
    repeat' split
    all_goals rfl
  | case2 s data start clock i zd m hz hm =>
    unfold gz_loop
    simp only [hm, hz]
    repeat' split
    all_goals rfl
  | case3 s data start clock i zd m hz hm =>
    unfold gz_loop
    simp only [hm, hz]
    repeat' split
    all_goals rfl
  | case4 s data start clock i zd m hz hm p s1 hw s2 hte htime ih =>
    unfold gz_loop
    simp only [hm, hz]
    rw [if_neg hw]
    split
    · exact absurd (by assumption) hte
    · rw [← hz]
      exact ih
  | case5 s data start clock i h =>
    unfold gz_loop
    rcases hz2 : s.zdec with _ | zd <;>
      rcases hm2 : s.sdmux_controller with _ | m <;> simp only [hz2, hm2]
    exact (h zd m hz2 hm2).elim

theorem bz2_loop_mounted (s : AgentState) (data : List CByte) (start : Nat)
    (clock : Nat → Nat) (i : Nat) :
    (bz2_loop s data start clock i).2.sd_mounted = s.sd_mounted := by
  induction s, data, start, clock, i using bz2_loop.induct with
  | case1 s data start clock i dec m h1 h2 e herr u hu =>
    unfold bz2_loop
    split
    · rename_i dec2 m2 heqa heqb
      rw [h1] at heqa
      rw [h2] at heqb
      cases heqa
      cases heqb
      split
      · have hu' : dec.unused_data.isEmpty = true := hu
        rw [if_pos hu']
      · rename_i out2 dec2' heqc
        rw [herr] at heqc
        exact Except.noConfusion heqc
    · rfl
  | case2 s data start clock i dec m h1 h2 e herr u s' hne ih =>
    unfold bz2_loop
    split
    · rename_i dec2 m2 heqa heqb
      rw [h1] at heqa
      rw [h2] at heqb
      cases heqa
      cases heqb
      split
      · have hne' : ¬dec.unused_data.isEmpty = true := hne
        rw [if_neg hne']
        exact ih
      · rename_i out2 dec2' heqc
        rw [herr] at heqc
        exact Except.noConfusion heqc
    · rfl
  | case3 s data start clock i dec m h1 h2 out dec' hok hw =>
    unfold bz2_loop
    split
    · rename_i dec2 m2 heqa heqb
      rw [h1] at heqa
      rw [h2] at heqb
      cases heqa
      cases heqb
      split
      · rename_i e2 heqc
        rw [hok] at heqc
        exact Except.noConfusion heqc
      · rename_i out2 dec2' heqc
        rw [hok] at heqc
        injection heqc with hpair
        injection hpair with h3 h4
        subst h3
        subst h4
        rw [if_pos hw]
    · rfl
  | case4 s data start clock i dec m h1 h2 out dec' hok hw hni =>
    unfold bz2_loop
    split
    · rename_i dec2 m2 heqa heqb
      rw [h1] at heqa
      rw [h2] at heqb
      cases heqa
      cases heqb
      split
      · rename_i e2 heqc
        rw [hok] at heqc
        exact Except.noConfusion heqc
      · rename_i out2 dec2' heqc
        rw [hok] at heqc
        injection heqc with hpair
        injection hpair with h3 h4
        subst h3
        subst h4
        rw [if_neg hw, if_pos hni]
    · rfl
  | case5 s data start clock i dec m h1 h2 out dec' hok s1 hw s2 hni htime =>
    unfold bz2_loop
    split
    · rename_i dec2 m2 heqa heqb
      rw [h1] at heqa
      rw [h2] at heqb
      cases heqa
      cases heqb
      split
      · rename_i e2 heqc
        rw [hok] at heqc
        exact Except.noConfusion heqc
      · rename_i out2 dec2' heqc
        rw [hok] at heqc
        injection heqc with hpair
        injection hpair with h3 h4
        subst h3
        subst h4
        rw [if_neg hw, if_neg hni]
        split
        · rfl
        · exact absurd htime (by assumption)
    · rfl
  | case6 s data start clock i dec m h1 h2 out dec' hok s1 hw s2 hni htime ih =>
    unfold bz2_loop
    split
    · rename_i dec2 m2 heqa heqb
      rw [h1] at heqa
      rw [h2] at heqb
      cases heqa
      cases heqb
      split
      · rename_i e2 heqc
        rw [hok] at heqc
        exact Except.noConfusion heqc
      · rename_i out2 dec2' heqc
        rw [hok] at heqc
        injection heqc with hpair
        injection hpair with h3 h4
        subst h3
        subst h4
        rw [if_neg hw, if_neg hni]
        split
        · exact absurd (by assumption) htime
        · exact ih
    · rfl
  | case7 s data start clock i hx =>
    unfold bz2_loop
    rcases hz2 : s.bz2dec with _ | dec <;>
      rcases hm2 : s.sdmux_controller with _ | m <;> simp only [hz2, hm2]
    exact (hx dec m hz2 hm2).elim

theorem sd_write_gz_mounted (s : AgentState) (d : List Nat)
    (B : Option String) (clock : Nat → Nat) :
    (sd_write_gz s d B clock).2.sd_mounted = s.sd_mounted := by
  unfold sd_write_gz
  split <;> rename_i s1 heq <;>
    (have hkm := check_expired_mounted s B (clock 0); rw [heq] at hkm)
  · exact hkm
  · split
    · exact hkm
    · dsimp only
      repeat' split
      all_goals first
        | exact hkm
        | exact (gz_loop_mounted _ _ _ _ _).trans hkm

theorem sd_write_bz2_mounted (s : AgentState) (d : List CByte)
    (B : Option String) (clock : Nat → Nat) :
    (sd_write_bz2 s d B clock).2.sd_mounted = s.sd_mounted := by
  unfold sd_write_bz2
  split <;> rename_i s1 heq <;>
    (have hkm := check_expired_mounted s B (clock 0); rw [heq] at hkm)
  · exact hkm
  · split
    · exact hkm
    · dsimp only
      repeat' split
      all_goals first
        | exact hkm
        | exact (bz2_loop_mounted _ _ _ _ _).trans hkm

theorem usb_ports_mounted (s : AgentState) (B : Option String) (now : Nat) :
    (usb_ports s B now).2.sd_mounted = s.sd_mounted := by
  unfold usb_ports
  split <;> rename_i s1 heq <;>
    (have hkm := check_expired_mounted s B now; rw [heq] at hkm)
  · exact hkm
  · exact hkm

/-- C10: once the mounted flag is set, no modelled operation ever clears
it; `sd_mount` then returns `true` immediately for any partition and
session without consulting the driver (the trace is unchanged and no mux
driver is required), and the flag persists across `sd_close`, `sd_open`,
host/target swaps, writes, lock and USB operations. -/
theorem c10_mounted_never_cleared (s s' : AgentState) (part dst B : Option String)
    (d : List Nat) (c : List CByte) (ndx offset now : Nat) (clock : Nat → Nat)
    (hmt : s.sd_mounted = true)
    (hck : check_expired s B now = (.ok (), s')) :
    sd_mount s part B now = (.ok true, s')
    ∧ s'.sd_mounted = true
    ∧ s'.trace = s.trace
    ∧ (sd_close s B now).2.sd_mounted = true
    ∧ (sd_open s B now).2.sd_mounted = true
    ∧ (sd_to_host s B now).2.sd_mounted = true
    ∧ (sd_to_target s B now).2.sd_mounted = true
    ∧ (sd_toggle s B now).2.sd_mounted = true
    ∧ (sd_status s B now).2.sd_mounted = true
    ∧ (sd_locked s B now).2.sd_mounted = true
    ∧ (sd_update s dst offset d B now).2.sd_mounted = true
    ∧ (sd_write_raw s d B now).2.sd_mounted = true
    ∧ (sd_write_gz s d B clock).2.sd_mounted = true
    ∧ (sd_write_bz2 s c B clock).2.sd_mounted = true
    ∧ (sd_bytes_written s B now).2.sd_mounted = true
    ∧ (target_lock s B now).2.sd_mounted = true
    ∧ (target_unlock s B now).2.sd_mounted = true
    ∧ (target_locked s B now).2.sd_mounted = true
    ∧ (target_status s B now).2.sd_mounted = true
    ∧ (target_on s B now).2.sd_mounted = true
    ∧ (target_off s B now).2.sd_mounted = true
    ∧ (target_toggle s B now).2.sd_mounted = true
    ∧ (power_locked s B now).2.sd_mounted = true
    ∧ (usb_on s ndx B now).2.sd_mounted = true
    ∧ (usb_off s ndx B now).2.sd_mounted = true
    ∧ (usb_toggle s ndx B now).2.sd_mounted = true
    ∧ (usb_status s ndx B now).2.sd_mounted = true
    ∧ (usb_ports s B now).2.sd_mounted = true := by
  obtain ⟨_, _, _, _, f5, _, _, _, _, _, _, _, f13, _⟩ := check_expired_frame hck
  have hmt' : s'.sd_mounted = true := f5.trans hmt
  refine ⟨?_, hmt', f13,
    (sd_close_mounted s B now).trans hmt,
    (sd_open_mounted s B now).trans hmt,
    (sd_to_host_mounted s B now).trans hmt,
    (sd_to_target_mounted s B now).trans hmt,
    (sd_toggle_mounted s B now).trans hmt,
    (sd_status_mounted s B now).trans hmt,
    (sd_locked_mounted s B now).trans hmt,
    (sd_update_mounted s dst offset d B now).trans hmt,
    (sd_write_raw_mounted s d B now).trans hmt,
    (sd_write_gz_mounted s d B clock).trans hmt,
    (sd_write_bz2_mounted s c B clock).trans hmt,
    (sd_bytes_written_mounted s B now).trans hmt,
    (target_lock_mounted s B now).trans hmt,
    (target_unlock_mounted s B now).trans hmt,
    (target_locked_mounted s B now).trans hmt,
    (target_status_mounted s B now).trans hmt,
    (target_on_mounted s B now).trans hmt,
    (target_off_mounted s B now).trans hmt,
    (target_toggle_mounted s B now).trans hmt,
    (power_locked_mounted s B now).trans hmt,
    (usb_on_mounted s ndx B now).trans hmt,
    (usb_off_mounted s ndx B now).trans hmt,
    (usb_toggle_mounted s ndx B now).trans hmt,
    (usb_status_mounted s ndx B now).trans hmt,
    (usb_ports_mounted s B now).trans hmt⟩
  unfold sd_mount
  simp only [hck, hmt']
  simp

/-- A state with the mounted flag set. -/
def c10s : AgentState := { baseState with sd_mounted := true }

/-- C10 witness: the statement at a concrete input. -/
theorem c10_witness :
    sd_mount c10s none (some "S") 0 = (.ok true, c10s)
    ∧ c10s.sd_mounted = true
    ∧ c10s.trace = c10s.trace
    ∧ (sd_close c10s (some "S") 0).2.sd_mounted = true
    ∧ (sd_open c10s (some "S") 0).2.sd_mounted = true
    ∧ (sd_to_host c10s (some "S") 0).2.sd_mounted = true
    ∧ (sd_to_target c10s (some "S") 0).2.sd_mounted = true
    ∧ (sd_toggle c10s (some "S") 0).2.sd_mounted = true
    ∧ (sd_status c10s (some "S") 0).2.sd_mounted = true
    ∧ (sd_locked c10s (some "S") 0).2.sd_mounted = true
    ∧ (sd_update c10s none 0 [1] (some "S") 0).2.sd_mounted = true
    ∧ (sd_write_raw c10s [1] (some "S") 0).2.sd_mounted = true
    ∧ (sd_write_gz c10s [1] (some "S") (fun _ => 0)).2.sd_mounted = true
    ∧ (sd_write_bz2 c10s [some 1] (some "S") (fun _ => 0)).2.sd_mounted = true
    ∧ (sd_bytes_written c10s (some "S") 0).2.sd_mounted = true
    ∧ (target_lock c10s (some "S") 0).2.sd_mounted = true
    ∧ (target_unlock c10s (some "S") 0).2.sd_mounted = true
    ∧ (target_locked c10s (some "S") 0).2.sd_mounted = true
    ∧ (target_status c10s (some "S") 0).2.sd_mounted = true
    ∧ (target_on c10s (some "S") 0).2.sd_mounted = true
    ∧ (target_off c10s (some "S") 0).2.sd_mounted = true
    ∧ (target_toggle c10s (some "S") 0).2.sd_mounted = true
    ∧ (power_locked c10s (some "S") 0).2.sd_mounted = true
    ∧ (usb_on c10s 1 (some "S") 0).2.sd_mounted = true
    ∧ (usb_off c10s 1 (some "S") 0).2.sd_mounted = true
    ∧ (usb_toggle c10s 1 (some "S") 0).2.sd_mounted = true
    ∧ (usb_status c10s 1 (some "S") 0).2.sd_mounted = true
    ∧ (usb_ports c10s (some "S") 0).2.sd_mounted = true :=
  c10_mounted_never_cleared c10s c10s none none (some "S") [1] [some 1] 1 0 0
    (fun _ => 0) rfl rfl

/-! ## C6/C7: streaming round trips -/

theorem lits_append (a b : List CByte) : lits (a ++ b) = lits a ++ lits b := by
  simp [lits]

theorem lits_map_some (l : List Nat) : lits (l.map some) = l := by
  simp [lits]

theorem lits_enc (l : List Nat) : lits (bz2enc l) = l := by
  simp [bz2enc, lits]

/-- Running the `sd_write_gz` while-loop under a constant clock writes
the whole buffer to the mux in block-sized pieces, returns the block
size, and leaves an empty unconsumed tail. -/
theorem gz_loop_run (s : AgentState) (data : List Nat) (start : Nat)
    (clock : Nat → Nat) (i : Nat) :
    ∀ (zd : ZDec) (m : MuxDriver),
      s.zdec = some zd → s.sdmux_controller = some m →
      m.write_ok = true → 0 < s.fbintvl → (∀ j, clock j = start) →
      ∃ s', gz_loop s data start clock i = (.ok blkszI, s')
        ∧ sink s'.trace = sink s.trace ++ data
        ∧ s'.sd_bytes_written = s.sd_bytes_written + data.length
        ∧ s'.zdec = some freshZDec
        ∧ s'.zdata = PyBytes.pynone
        ∧ s'.sdmux_controller = s.sdmux_controller
        ∧ s'.lock_owner = s.lock_owner
        ∧ s'.fbintvl = s.fbintvl
        ∧ s'.bz2dec = s.bz2dec
        ∧ s'.sd_bytes_written = s.sd_bytes_written + data.length := by
  induction s, data, start, clock, i using gz_loop.induct with
  | case1 s data start clock i zd m hz hm =>
    intro zd2 m2 hz2 hm2 hw hfb hclock
    rw [hz] at hm2
    cases hm2
    rename_i hwf
    rw [hwf] at hw
    exact absurd hw (by simp)
  | case2 s data start clock i zd m hz hm =>
    intro zd2 m2 hz2 hm2 hw hfb hclock
    rename_i p hwn hte
    unfold gz_loop
    simp only [hm, hz]
    rw [if_neg hwn, dif_pos hte]
    have htail : data.drop blksz = [] := by
      have : p.2.unconsumed_tail = data.drop blksz := rfl
      rw [this] at hte
      simpa using hte
    have htake : data.take blksz = data := by
      apply List.take_of_length_le
      have := List.drop_eq_nil_iff_le.mp htail
      exact this
    refine ⟨_, rfl, ?_, ?_, ?_, rfl, rfl, rfl, rfl, rfl, ?_⟩
    · show sink (s.trace ++ [DriverCall.muxWrite (data.take blksz)])
        = sink s.trace ++ data
      rw [sink_append, htake]
      simp [sink]
    · show s.sd_bytes_written + (data.take blksz).length
        = s.sd_bytes_written + data.length
      rw [htake]
    · show some (ZDec.mk (data.drop blksz)) = some freshZDec
      rw [htail]
      rfl
    · show s.sd_bytes_written + (data.take blksz).length
        = s.sd_bytes_written + data.length
      rw [htake]
  | case3 s data start clock i zd m hz hm =>
    intro zd2 m2 hz2 hm2 hw hfb hclock
    rename_i p s1 hwn s2 hte htime
    exfalso
    rw [hclock i] at htime
    simp at htime
    have hfb2 : s2.fbintvl = s.fbintvl := rfl
    rw [hfb2] at htime
    omega
  | case4 s data start clock i zd m hz hm p s1 hw s2 hte htime ih =>
    intro zd2 m2 hz2 hm2 hwt hfb hclock
    rw [hm] at hz2
    cases hz2
    rw [hz] at hm2
    cases hm2
    obtain ⟨s', hrun, hsink, hbytes, hzd, hzd2, hsm, hlo, hfbi, hbz, _⟩ :=
      ih p.2 m rfl hz hwt hfb hclock
    unfold gz_loop
    simp only [hm, hz]
    rw [if_neg hw]
    split
    · exact absurd (by assumption) hte
    · rw [← hz]
      refine ⟨s', hrun, ?_, ?_, hzd, hzd2, hsm, hlo, hfbi, hbz, ?_⟩
      · rw [hsink]
        have h1 : sink s2.trace
            = sink s.trace ++ (zd.decompress data blksz).1 := by
          show sink (s.trace ++ [DriverCall.muxWrite (zd.decompress data blksz).1])
            = sink s.trace ++ (zd.decompress data blksz).1
          rw [sink_append]
          simp [sink]
        rw [h1]
        have : (zd.decompress data blksz).1 ++ p.2.unconsumed_tail = data := by
          show data.take blksz ++ data.drop blksz = data
          exact List.take_append_drop blksz data
        rw [List.append_assoc, this]
      · rw [hbytes]
        have h2 : s2.sd_bytes_written
            = s.sd_bytes_written + (data.take blksz).length := rfl
        rw [h2]
        have hlen : blksz < data.length := by
          by_contra hc
          have : data.drop blksz = [] := by
            apply List.drop_eq_nil_iff_le.mpr
            omega
          have h4 : p.2.unconsumed_tail = data.drop blksz := rfl
          rw [h4, this] at hte
          simp at hte
        have h5 : p.2.unconsumed_tail = data.drop blksz := rfl
        rw [h5]
        simp [List.length_take, List.length_drop]
        omega
      · rw [hbytes]
        have h2 : s2.sd_bytes_written
            = s.sd_bytes_written + (data.take blksz).length := rfl
        rw [h2]
        have hlen : blksz < data.length := by
          by_contra hc
          have : data.drop blksz = [] := by
            apply List.drop_eq_nil_iff_le.mpr
            omega
          have h4 : p.2.unconsumed_tail = data.drop blksz := rfl
          rw [h4, this] at hte
          simp at hte
        have h5 : p.2.unconsumed_tail = data.drop blksz := rfl
        rw [h5]
        simp [List.length_take, List.length_drop]
        omega
  | case5 s data start clock i h =>
    intro zd2 m2 hz2 hm2 hw hfb hclock
    exact (h zd2 m2 hz2 hm2).elim

/-- One `sd_write_gz` call from an unlocked state with a fresh (or not
yet created) decompressor consumes the whole fragment. -/
theorem sd_write_gz_call (s : AgentState) (data : List Nat) (c : Nat)
    (m : MuxDriver)
    (hlo : s.lock_owner = none) (hm : s.sdmux_controller = some m)
    (hw : m.write_ok = true) (hfb : 0 < s.fbintvl)
    (hz : s.zdec = none ∨ s.zdec = some freshZDec)
    (hdata : data ≠ []) :
    ∃ s', sd_write_gz s data none (fun _ => c) = (.ok blkszI, s')
      ∧ sink s'.trace = sink s.trace ++ data
      ∧ s'.sd_bytes_written = s.sd_bytes_written + data.length
      ∧ s'.zdec = some freshZDec
      ∧ s'.lock_owner = none
      ∧ s'.sdmux_controller = some m
      ∧ s'.fbintvl = s.fbintvl
      ∧ s'.bz2dec = s.bz2dec := by
  have hde : ¬data.isEmpty = true := by
    simpa using hdata
  unfold sd_write_gz
  simp only [check_expired_no_owner hlo, hm]
  rcases hz with h | h
  · have hzn : s.zdec.isNone = true := by simp [h]
    simp only [hzn, if_true]
    rw [if_neg hde, ← hm]
    obtain ⟨s', hrun, hsink, hbytes, hzd, _, hsm, hlo', hfbi, hbz, _⟩ :=
      gz_loop_run { s with zdec := some freshZDec } data c (fun _ => c) 2
        freshZDec m rfl hm hw hfb (fun j => rfl)
    have hlo2 : s'.lock_owner = none := hlo'.trans hlo
    exact ⟨s', hrun, hsink, hbytes, hzd, hlo2, hsm, hfbi, hbz⟩
  · have hzn : s.zdec.isNone = false := by simp [h]
    simp only [hzn, Bool.false_eq_true, if_false]
    rw [if_neg hde, ← hm]
    obtain ⟨s', hrun, hsink, hbytes, hzd, _, hsm, hlo', hfbi, hbz, _⟩ :=
      gz_loop_run s data c (fun _ => c) 2 freshZDec m h hm hw hfb
        (fun j => rfl)
    have hlo2 : s'.lock_owner = none := hlo'.trans hlo
    exact ⟨s', hrun, hsink, hbytes, hzd, hlo2, hsm, hfbi, hbz⟩

/-- The caller of the streaming write pipeline, per the return contract:
feed the next fragment whenever the previous call returned a
non-negative status; abort on a negative status or an exception. -/
def driveGz (clock : Nat → Nat) : AgentState → List (List Nat) → Option AgentState
  | s, [] => some s
  | s, f :: rest =>
    match sd_write_gz s f none clock with
    | (.ok st, s') => if 0 ≤ st then driveGz clock s' rest else none
    | (.error _, _) => none

theorem driveGz_run (c : Nat) (frags : List (List Nat)) :
    ∀ (s : AgentState) (m : MuxDriver),
      s.lock_owner = none → s.sdmux_controller = some m →
      m.write_ok = true → 0 < s.fbintvl →
      (s.zdec = none ∨ s.zdec = some freshZDec) →
      (∀ f ∈ frags, f ≠ []) →
      ∃ s', driveGz (fun _ => c) s frags = some s'
        ∧ sink s'.trace = sink s.trace ++ frags.flatten
        ∧ s'.sd_bytes_written = s.sd_bytes_written + frags.flatten.length := by
  induction frags with
  | nil =>
    intro s m h1 h2 h3 h4 h5 h6
    exact ⟨s, rfl, by simp, by simp⟩
  | cons f rest ih =>
    intro s m h1 h2 h3 h4 h5 h6
    obtain ⟨s1, hcall, hsink, hbytes, hzd, hlo, hsm, hfbi, _⟩ :=
      sd_write_gz_call s f c m h1 h2 h3 h4 h5 (h6 f (by simp))
    obtain ⟨s', hdrive, hsink', hbytes'⟩ :=
      ih s1 m hlo hsm h3 (by rw [hfbi]; exact h4) (Or.inr hzd)
        (fun g hg => h6 g (by simp [hg]))
    refine ⟨s', ?_, ?_, ?_⟩
    · unfold driveGz
      simp only [hcall]
      rw [if_pos (by norm_num [blkszI])]
      exact hdrive
    · rw [hsink', hsink]
      simp [List.append_assoc]
    · rw [hbytes', hbytes]
      simp
      omega

/-- The bytes the bzip2 loop will still deliver to the sink: the
literals of the unused tail when the decompressor is at end of stream,
else the literals of the buffered plus newly supplied input. -/
def bz2pend (dec : Bz2Dec) (data : List CByte) : List Nat :=
  if dec.eof then lits dec.unused_data else lits (dec.buf ++ data)

/-- A `decompress` that raises was at end of stream. -/
theorem bz2_decompress_error_eof {dec : Bz2Dec} {data : List CByte}
    {e : Err} (h : dec.decompress data blksz = .error e) :
    dec.eof = true := by
  by_contra hc
  rw [Bool.not_eq_true] at hc
  simp [Bz2Dec.decompress, hc] at h
  rcases hs : scanBz2 blksz (dec.buf ++ data) with ⟨o, oc⟩
  rw [hs] at h
  cases oc <;> simp at h

/-- A `decompress` that returns was not at end of stream. -/
theorem bz2_decompress_ok_eof {dec : Bz2Dec} {data : List CByte}
    {r : List Nat × Bz2Dec} (h : dec.decompress data blksz = .ok r) :
    dec.eof = false := by
  by_contra hc
  rw [Bool.not_eq_false] at hc
  unfold Bz2Dec.decompress at h
  rw [if_pos hc] at h
  exact Except.noConfusion h

/-- Running the `sd_write_bz2` while-loop under a constant clock from a
decompressor with no stale unused data delivers exactly the pending
literals to the sink and ends with a pristine decompressor. -/
theorem bz2_loop_run (s : AgentState) (data : List CByte) (start : Nat)
    (clock : Nat → Nat) (i : Nat) :
    ∀ (dec : Bz2Dec) (m : MuxDriver),
      s.bz2dec = some dec → s.sdmux_controller = some m →
      m.write_ok = true → 0 < s.fbintvl → (∀ j, clock j = start) →
      (dec.eof = false → dec.unused_data = []) →
      ∃ s' st, bz2_loop s data start clock i = (.ok st, s')
        ∧ 0 ≤ st
        ∧ sink s'.trace = sink s.trace ++ bz2pend dec data
        ∧ s'.sd_bytes_written = s.sd_bytes_written + (bz2pend dec data).length
        ∧ s'.bz2dec = some freshBz2
        ∧ s'.lock_owner = s.lock_owner
        ∧ s'.sdmux_controller = s.sdmux_controller
        ∧ s'.fbintvl = s.fbintvl
        ∧ s'.zdec = s.zdec := by
  induction s, data, start, clock, i using bz2_loop.induct with
  | case1 s data start clock i dec m h1 h2 e herr u hu =>
    intro dec2 m2 hd hm hw hfb hclock hun
    rw [h1] at hd
    cases hd
    have heof : dec.eof = true := bz2_decompress_error_eof herr
    have hu2 : dec.unused_data = [] := by
      have : u = dec.unused_data := rfl
      rw [this] at hu
      simpa using hu
    unfold bz2_loop
    split
    · rename_i decx mx heqa heqb
      rw [h1] at heqa
      cases heqa
      rw [h2] at heqb
      cases heqb
      split
      · rename_i e2 heqc
        have hu' : dec.unused_data.isEmpty = true := by simp [hu2]
        rw [if_pos hu']
        refine ⟨_, 0, rfl, le_refl 0, ?_, ?_, rfl, rfl, rfl, rfl, rfl⟩
        · simp [bz2pend, heof, hu2, lits]
        · simp [bz2pend, heof, hu2, lits]
      · rename_i o2 d2 heqc
        rw [herr] at heqc
        exact Except.noConfusion heqc
    · rename_i hfalse
      exact absurd h1 (by simp_all)
  | case2 s data start clock i dec m h1 h2 e herr u s0 hne ih =>
    intro dec2 m2 hd hm hw hfb hclock hun
    rw [h1] at hd
    cases hd
    rw [h2] at hm
    cases hm
    have heof : dec.eof = true := bz2_decompress_error_eof herr
    obtain ⟨s', st, hrun, hst, hsink, hbytes, hdec, hlo, hsm, hfbi, hzd⟩ :=
      ih freshBz2 m rfl h2 hw hfb hclock (fun _ => rfl)
    unfold bz2_loop
    split
    · rename_i decx mx heqa heqb
      rw [h1] at heqa
      cases heqa
      rw [h2] at heqb
      cases heqb
      split
      · rename_i e2 heqc
        have hu' : ¬dec.unused_data.isEmpty = true := by
          have : u = dec.unused_data := rfl
          rw [this] at hne
          exact hne
        rw [if_neg hu']
        refine ⟨s', st, hrun, hst, ?_, ?_, hdec, hlo, hsm, hfbi, hzd⟩
        · rw [hsink]
          simp [bz2pend, heof, freshBz2]
        · rw [hbytes]
          simp [bz2pend, heof, freshBz2]
      · rename_i o2 d2 heqc
        rw [herr] at heqc
        exact Except.noConfusion heqc
    · rename_i hfalse
      exact absurd h1 (by simp_all)
  | case3 s data start clock i dec m h1 h2 out dec' hok hwf =>
    intro dec2 m2 hd hm hw hfb hclock hun
    rw [h2] at hm
    cases hm
    rw [hwf] at hw
    exact absurd hw (by simp)
  | case4 s data start clock i dec m h1 h2 out dec' hok hwf hni =>
    intro dec2 m2 hd hm hw hfb hclock hun
    rw [h1] at hd
    cases hd
    have heof : dec.eof = false := bz2_decompress_ok_eof hok
    have hu2 : dec.unused_data = [] := hun heof
    -- identify the scan outcome: needs_input is true only when exhausted
    rcases hs : scanBz2 blksz (dec.buf ++ data) with ⟨o, oc⟩
    have hokv := hok
    simp only [Bz2Dec.decompress, heof, Bool.false_eq_true, if_false, hs]
      at hokv
    cases oc with
    | limit rest =>
      simp at hokv
      rcases hokv with ⟨h3, h4⟩
      rw [← h4] at hni
      simp at hni
    | marker rest =>
      simp at hokv
      rcases hokv with ⟨h3, h4⟩
      rw [← h4] at hni
      simp at hni
    | exhausted =>
      simp at hokv
      rcases hokv with ⟨h3, h4⟩
      have h3' : o = out := by first | exact h3 | exact h3.symm
      have h4' : dec' = Bz2Dec.mk [] dec.unused_data false true := by
        first | exact h4.symm | exact h4
      have hdecomp := scanBz2_decomp blksz (dec.buf ++ data)
      rw [hs] at hdecomp
      have hinput : dec.buf ++ data = o.map some := hdecomp
      have hpend : bz2pend dec data = out := by
        simp [bz2pend, heof]
        rw [hinput, h3', lits_map_some]
      unfold bz2_loop
      split
      · rename_i decx mx heqa heqb
        rw [h1] at heqa
        cases heqa
        rw [h2] at heqb
        cases heqb
        split
        · rename_i e2 heqc
          rw [hok] at heqc
          exact Except.noConfusion heqc
        · rename_i o2 d2 heqc
          rw [hok] at heqc
          injection heqc with hpair
          injection hpair with h5 h6
          subst h5
          subst h6
          rw [if_neg hwf, if_pos hni]
          refine ⟨_, blkszI, rfl, by norm_num [blkszI], ?_, ?_, ?_, rfl, rfl,
            rfl, rfl⟩
          · show sink (s.trace ++ [DriverCall.muxWrite out]) =
              sink s.trace ++ bz2pend dec data
            rw [sink_append, hpend]
            simp [sink]
          · show s.sd_bytes_written + out.length =
              s.sd_bytes_written + (bz2pend dec data).length
            rw [hpend]
          · show some dec' = some freshBz2
            rw [h4', hu2]
            rfl
      · rename_i hfalse
        first
        | exact (hfalse _ _ h1 h2).elim
        | exact absurd h1 (by simp_all)
  | case5 s data start clock i dec m h1 h2 out dec' hok s1 hwf s2 hni htime =>
    intro dec2 m2 hd hm hw hfb hclock hun
    exfalso
    rw [hclock i] at htime
    simp at htime
    have hfb2 : s2.fbintvl = s.fbintvl := rfl
    rw [hfb2] at htime
    omega
  | case6 s data start clock i dec m h1 h2 out dec' hok s1 hwf s2 hni htime ih =>
    intro dec2 m2 hd hm hw hfb hclock hun
    rw [h1] at hd
    cases hd
    rw [h2] at hm
    cases hm
    have heof : dec.eof = false := bz2_decompress_ok_eof hok
    have hu2 : dec.unused_data = [] := hun heof
    rcases hs : scanBz2 blksz (dec.buf ++ data) with ⟨o, oc⟩
    have hokv := hok
    simp only [Bz2Dec.decompress, heof, Bool.false_eq_true, if_false, hs]
      at hokv
    have hdecomp := scanBz2_decomp blksz (dec.buf ++ data)
    rw [hs] at hdecomp
    cases oc with
    | exhausted =>
      simp at hokv
      rcases hokv with ⟨h3, h4⟩
      rw [← h4] at hni
      simp at hni
    | limit rest =>
      simp at hokv
      rcases hokv with ⟨h3, h4⟩
      have h3' : o = out := by first | exact h3 | exact h3.symm
      have h4' : dec' = Bz2Dec.mk rest dec.unused_data false false := by
        first | exact h4.symm | exact h4
      have hinput : dec.buf ++ data = o.map some ++ rest ∧ o.length = blksz :=
        hdecomp
      have hp1 : bz2pend dec data = out ++ lits rest := by
        simp [bz2pend, heof]
        rw [hinput.1, lits_append, h3', lits_map_some]
      have hp2 : bz2pend (Bz2Dec.mk rest dec.unused_data false false) []
          = lits rest := by
        simp [bz2pend]
      obtain ⟨s', st, hrun, hst, hsink, hbytes, hdec, hlo, hsm, hfbi, hzd⟩ :=
        ih ⟨rest, dec.unused_data, false, false⟩ m
          (by show some dec' = _; rw [h4']) h2 hw hfb hclock (fun _ => hu2)
      unfold bz2_loop
      split
      · rename_i decx mx heqa heqb
        rw [h1] at heqa
        cases heqa
        rw [h2] at heqb
        cases heqb
        split
        · rename_i e2 heqc
          rw [hok] at heqc
          exact Except.noConfusion heqc
        · rename_i o2 d2 heqc
          rw [hok] at heqc
          injection heqc with hpair
          injection hpair with h5 h6
          subst h5
          subst h6
          rw [if_neg hwf, if_neg hni]
          have hnt : ¬s.fbintvl ≤ clock i - start := by
            rw [hclock i]
            simp
            omega
          rw [if_neg hnt]
          refine ⟨s', st, hrun, hst, ?_, ?_, hdec, hlo, hsm, hfbi, hzd⟩
          · rw [hsink, hp2]
            show sink (s.trace ++ [DriverCall.muxWrite out]) ++ lits rest =
              sink s.trace ++ bz2pend dec data
            rw [sink_append, hp1]
            simp [sink]
          · rw [hbytes, hp2]
            show s.sd_bytes_written + out.length + (lits rest).length =
              s.sd_bytes_written + (bz2pend dec data).length
            rw [hp1]
            simp
            omega
      · rename_i hfalse
        first
        | exact (hfalse _ _ h1 h2).elim
        | exact absurd h1 (by simp_all)
    | marker rest =>
      simp at hokv
      rcases hokv with ⟨h3, h4⟩
      have h3' : o = out := by first | exact h3 | exact h3.symm
      have h4' : dec' = Bz2Dec.mk [] rest true false := by
        first | exact h4.symm | exact h4
      have hinput : dec.buf ++ data = o.map some ++ none :: rest := hdecomp
      have hp1 : bz2pend dec data = out ++ lits rest := by
        simp [bz2pend, heof]
        rw [hinput, lits_append, h3', lits_map_some]
        simp [lits]
      have hp2 : bz2pend (Bz2Dec.mk [] rest true false) [] = lits rest := by
        simp [bz2pend]
      obtain ⟨s', st, hrun, hst, hsink, hbytes, hdec, hlo, hsm, hfbi, hzd⟩ :=
        ih ⟨[], rest, true, false⟩ m
          (by show some dec' = _; rw [h4']) h2 hw hfb hclock
          (fun h => by simp at h)
      unfold bz2_loop
      split
      · rename_i decx mx heqa heqb
        rw [h1] at heqa
        cases heqa
        rw [h2] at heqb
        cases heqb
        split
        · rename_i e2 heqc
          rw [hok] at heqc
          exact Except.noConfusion heqc
        · rename_i o2 d2 heqc
          rw [hok] at heqc
          injection heqc with hpair
          injection hpair with h5 h6
          subst h5
          subst h6
          rw [if_neg hwf, if_neg hni]
          have hnt : ¬s.fbintvl ≤ clock i - start := by
            rw [hclock i]
            simp
            omega
          rw [if_neg hnt]
          refine ⟨s', st, hrun, hst, ?_, ?_, hdec, hlo, hsm, hfbi, hzd⟩
          · rw [hsink, hp2]
            show sink (s.trace ++ [DriverCall.muxWrite out]) ++ lits rest =
              sink s.trace ++ bz2pend dec data
            rw [sink_append, hp1]
            simp [sink]
          · rw [hbytes, hp2]
            show s.sd_bytes_written + out.length + (lits rest).length =
              s.sd_bytes_written + (bz2pend dec data).length
            rw [hp1]
            simp
            omega
      · rename_i hfalse
        first
        | exact (hfalse _ _ h1 h2).elim
        | exact absurd h1 (by simp_all)
  | case7 s data start clock i hx =>
    intro dec2 m2 hd hm hw hfb hclock hun
    exact (hx dec2 m2 hd hm).elim

/-- One `sd_write_bz2` call from an unlocked state with a fresh (or not
yet created) decompressor delivers the literal bytes of the fragment to
the sink, handling any end-of-stream markers inside the fragment in the
same call. -/
theorem sd_write_bz2_call (s : AgentState) (data : List CByte) (c : Nat)
    (m : MuxDriver)
    (hlo : s.lock_owner = none) (hm : s.sdmux_controller = some m)
    (hw : m.write_ok = true) (hfb : 0 < s.fbintvl)
    (hb : s.bz2dec = none ∨ s.bz2dec = some freshBz2) :
    ∃ s' st, sd_write_bz2 s data none (fun _ => c) = (.ok st, s')
      ∧ 0 ≤ st
      ∧ sink s'.trace = sink s.trace ++ lits data
      ∧ s'.sd_bytes_written = s.sd_bytes_written + (lits data).length
      ∧ s'.bz2dec = some freshBz2
      ∧ s'.lock_owner = none
      ∧ s'.sdmux_controller = some m
      ∧ s'.fbintvl = s.fbintvl
      ∧ s'.zdec = s.zdec := by
  have hpend : bz2pend freshBz2 data = lits data := by
    simp [bz2pend, freshBz2]
  unfold sd_write_bz2
  simp only [check_expired_no_owner hlo, hm]
  rcases hb with h | h
  · have hbn : s.bz2dec.isNone = true := by simp [h]
    simp only [hbn, if_true]
    rw [← hm]
    obtain ⟨s', st, hrun, hst, hsink, hbytes, hdec, hlo', hsm, hfbi, hzd⟩ :=
      bz2_loop_run { s with bz2dec := some freshBz2 } data c (fun _ => c) 2
        freshBz2 m rfl hm hw hfb (fun j => rfl) (fun _ => rfl)
    rw [hpend] at hsink hbytes
    have hlo2 : s'.lock_owner = none := hlo'.trans hlo
    exact ⟨s', st, hrun, hst, hsink, hbytes, hdec, hlo2, hsm, hfbi, hzd⟩
  · have hbn : s.bz2dec.isNone = false := by simp [h]
    simp only [hbn, Bool.false_eq_true, if_false]
    rw [← hm]
    obtain ⟨s', st, hrun, hst, hsink, hbytes, hdec, hlo', hsm, hfbi, hzd⟩ :=
      bz2_loop_run s data c (fun _ => c) 2 freshBz2 m h hm hw hfb
        (fun j => rfl) (fun _ => rfl)
    rw [hpend] at hsink hbytes
    have hlo2 : s'.lock_owner = none := hlo'.trans hlo
    exact ⟨s', st, hrun, hst, hsink, hbytes, hdec, hlo2, hsm, hfbi, hzd⟩

/-- The caller of the bzip2 write pipeline, per the return contract. -/
def driveBz2 (clock : Nat → Nat) :
    AgentState → List (List CByte) → Option AgentState
  | s, [] => some s
  | s, f :: rest =>
    match sd_write_bz2 s f none clock with
    | (.ok st, s') => if 0 ≤ st then driveBz2 clock s' rest else none
    | (.error _, _) => none

theorem driveBz2_run (c : Nat) (cfrags : List (List CByte)) :
    ∀ (s : AgentState) (m : MuxDriver),
      s.lock_owner = none → s.sdmux_controller = some m →
      m.write_ok = true → 0 < s.fbintvl →
      (s.bz2dec = none ∨ s.bz2dec = some freshBz2) →
      ∃ s', driveBz2 (fun _ => c) s cfrags = some s'
        ∧ sink s'.trace = sink s.trace ++ lits cfrags.flatten
        ∧ s'.sd_bytes_written
            = s.sd_bytes_written + (lits cfrags.flatten).length := by
  induction cfrags with
  | nil =>
    intro s m h1 h2 h3 h4 h5
    exact ⟨s, rfl, by simp [lits], by simp [lits]⟩
  | cons f rest ih =>
    intro s m h1 h2 h3 h4 h5
    obtain ⟨s1, st, hcall, hst, hsink, hbytes, hdec, hlo, hsm, hfbi, _⟩ :=
      sd_write_bz2_call s f c m h1 h2 h3 h4 h5
    obtain ⟨s', hdrive, hsink', hbytes'⟩ :=
      ih s1 m hlo hsm h3 (by rw [hfbi]; exact h4) (Or.inr hdec)
    refine ⟨s', ?_, ?_, ?_⟩
    · unfold driveBz2
      simp only [hcall]
      rw [if_pos hst]
      exact hdrive
    · rw [hsink', hsink]
      simp [lits_append, List.append_assoc]
    · rw [hbytes', hbytes]
      simp [lits_append]
      omega

/-- A state ready for a streaming write: mux driver configured with a
reliable `write()`, no lease, fresh pipeline, empty trace. -/
def c6s : AgentState := { baseState with sdmux_controller := some muxAllOk }

/-- C6: feeding the gzip (respectively bzip2) pipeline the full
compressed representation of a byte sequence, partitioned into arbitrary
nonempty fragments, per the return contract (the next fragment on every
non-negative status), delivers exactly that byte sequence, in order, to
the mux driver's write sink, and the bytes-written counter at completion
equals the decompressed length.  Under the identity-codec model of the
external decompressors the gzip representation of `payload` is `payload`
itself, and the bzip2 representation is `bz2enc payload`. -/
theorem c6_streaming_round_trip (payload cpayload : List Nat)
    (frags : List (List Nat)) (cfrags : List (List CByte))
    (s : AgentState) (m : MuxDriver)
    (hm : s.sdmux_controller = some m) (hw : m.write_ok = true)
    (hlo : s.lock_owner = none) (hfb : 0 < s.fbintvl)
    (hz : s.zdec = none) (hb : s.bz2dec = none)
    (htr : s.trace = []) (hby : s.sd_bytes_written = 0) :
    (frags.flatten = payload → (∀ f ∈ frags, f ≠ []) →
      ∃ s', driveGz (fun _ => 0) s frags = some s'
        ∧ sink s'.trace = payload
        ∧ s'.sd_bytes_written = payload.length)
    ∧ (cfrags.flatten = bz2enc cpayload →
      ∃ s', driveBz2 (fun _ => 0) s cfrags = some s'
        ∧ sink s'.trace = cpayload
        ∧ s'.sd_bytes_written = cpayload.length) := by
  constructor
  · intro hjoin hne
    obtain ⟨s', hdrive, hsink, hbytes⟩ :=
      driveGz_run 0 frags s m hlo hm hw hfb (Or.inl hz) hne
    refine ⟨s', hdrive, ?_, ?_⟩
    · rw [hsink, htr, hjoin]
      simp [sink]
    · rw [hbytes, hby, hjoin]
      simp
  · intro hjoin
    obtain ⟨s', hdrive, hsink, hbytes⟩ :=
      driveBz2_run 0 cfrags s m hlo hm hw hfb (Or.inl hb)
    refine ⟨s', hdrive, ?_, ?_⟩
    · rw [hsink, htr, hjoin, lits_enc]
      simp [sink]
    · rw [hbytes, hby, hjoin, lits_enc]
      simp

/-- C6 witness: a two-byte payload split into one-byte gzip fragments,
and a one-byte bzip2 payload split into a literal fragment and a
marker fragment. -/
theorem c6_witness :
    (∃ s', driveGz (fun _ => 0) c6s [[1], [2]] = some s'
      ∧ sink s'.trace = [1, 2] ∧ s'.sd_bytes_written = [1, 2].length)
    ∧ (∃ s', driveBz2 (fun _ => 0) c6s [[some 3], [none]] = some s'
      ∧ sink s'.trace = [3] ∧ s'.sd_bytes_written = [3].length) :=
  ⟨(c6_streaming_round_trip [1, 2] [3] [[1], [2]] [[some 3], [none]] c6s
      muxAllOk rfl rfl rfl (by decide) rfl rfl rfl rfl).1 rfl (by decide),
   (c6_streaming_round_trip [1, 2] [3] [[1], [2]] [[some 3], [none]] c6s
      muxAllOk rfl rfl rfl (by decide) rfl rfl rfl rfl).2 rfl⟩

/-- C7: feeding the concatenation of two independently compressed bzip2
streams, in arbitrary fragments, decodes to the concatenation of both
original contents with no caller-visible error: at each end-of-stream
marker the pipeline constructs a fresh decompressor inside the same call
and resumes on the unused tail without new caller input, and the driver
never observes a negative status or an exception. -/
theorem c7_bz2_multistream (x y : List Nat) (cfrags : List (List CByte))
    (s : AgentState) (m : MuxDriver)
    (hm : s.sdmux_controller = some m) (hw : m.write_ok = true)
    (hlo : s.lock_owner = none) (hfb : 0 < s.fbintvl)
    (hb : s.bz2dec = none)
    (htr : s.trace = []) (hby : s.sd_bytes_written = 0)
    (hjoin : cfrags.flatten = bz2enc x ++ bz2enc y) :
    ∃ s', driveBz2 (fun _ => 0) s cfrags = some s'
      ∧ sink s'.trace = x ++ y
      ∧ s'.sd_bytes_written = (x ++ y).length := by
  obtain ⟨s', hdrive, hsink, hbytes⟩ :=
    driveBz2_run 0 cfrags s m hlo hm hw hfb (Or.inl hb)
  refine ⟨s', hdrive, ?_, ?_⟩
  · rw [hsink, htr, hjoin, lits_append, lits_enc, lits_enc]
    simp [sink]
  · rw [hbytes, hby, hjoin, lits_append, lits_enc, lits_enc]
    simp

/-- C7 witness: two one-byte streams concatenated, split so that the
first fragment ends in the middle of the second stream. -/
theorem c7_witness :
    ∃ s', driveBz2 (fun _ => 0) c6s [[some 7, none, some 8], [none]] = some s'
      ∧ sink s'.trace = [7] ++ [8]
      ∧ s'.sd_bytes_written = ([7] ++ [8] : List Nat).length :=
  c7_bz2_multistream [7] [8] [[some 7, none, some 8], [none]] c6s muxAllOk
    rfl rfl rfl (by decide) rfl rfl rfl rfl

end Mtda
